import Mathlib

/-!
Verification development for the Google-Maps search-result extractor
(`src/enqueue_places.js` together with the decoder
`parseSearchPlacesResponseBody` from `place-extractors/general.js`, and
`utils/search-page.js`).

The JavaScript is shallowly embedded:

* dynamic JSON-ish values become the inductive `JVal` (with an explicit
  `undefined` for JavaScript's `undefined`, which member access can produce);
* `JSON.parse` becomes the executable fuel-based `Json.parse`;
* property/index access that throws a `TypeError` on `null`/`undefined`
  receivers is modelled with `Except String`;
* the decoder and the scrolling controller become pure functions and an
  explicit step function over a session state; external collaborators that
  are not part of the sources (request queue, budget tracker, places cache,
  polygon test, misc string utilities) are modelled from the specification
  and say so in their doc comments.
-/

/-- JavaScript value as produced by `JSON.parse` plus `undefined`.
Numbers are kept exactly as a decimal mantissa/exponent pair
(`num m e` denotes `m * 10 ^ e`); the claims never compare numeric
magnitudes, only structure. -/
inductive JVal where
  | undefined : JVal
  | null : JVal
  | bool : Bool → JVal
  | num : Int → Int → JVal
  | str : String → JVal
  | arr : List JVal → JVal
  | obj : List (String × JVal) → JVal

mutual

/-- Structural equality test on `JVal` (used both to model JavaScript's
value equality on ids and to obtain decidable equality). -/
def JVal.beq : JVal → JVal → Bool
  | .undefined, .undefined => true
  | .null, .null => true
  | .bool a, .bool b => a = b
  | .num m1 e1, .num m2 e2 => m1 = m2 ∧ e1 = e2
  | .str a, .str b => a = b
  | .arr xs, .arr ys => JVal.beqList xs ys
  | .obj fs, .obj gs => JVal.beqFields fs gs
  | _, _ => false

/-- Pointwise `JVal.beq` on lists. -/
def JVal.beqList : List JVal → List JVal → Bool
  | [], [] => true
  | x :: xs, y :: ys => JVal.beq x y && JVal.beqList xs ys
  | _, _ => false

/-- Pointwise `JVal.beq` on association lists. -/
def JVal.beqFields : List (String × JVal) → List (String × JVal) → Bool
  | [], [] => true
  | (k1, v1) :: xs, (k2, v2) :: ys =>
      decide (k1 = k2) && JVal.beq v1 v2 && JVal.beqFields xs ys
  | _, _ => false

end

theorem JVal.beqList_iff (n : ℕ)
    (ih : ∀ a b : JVal, sizeOf a ≤ n → (JVal.beq a b = true ↔ a = b)) :
    ∀ xs ys : List JVal, (∀ x ∈ xs, sizeOf x ≤ n) →
      (JVal.beqList xs ys = true ↔ xs = ys) := by
  intro xs
  induction xs with
  | nil => intro ys _; cases ys <;> simp [JVal.beqList]
  | cons x xs ihl =>
    intro ys hb
    cases ys with
    | nil => simp [JVal.beqList]
    | cons y ys =>
      have h1 := ih x y (hb x (by simp))
      have h2 := ihl ys (fun z hz => hb z (by simp [hz]))
      simp [JVal.beqList, h1, h2]

theorem JVal.beqFields_iff (n : ℕ)
    (ih : ∀ a b : JVal, sizeOf a ≤ n → (JVal.beq a b = true ↔ a = b)) :
    ∀ xs ys : List (String × JVal), (∀ x ∈ xs, sizeOf x.2 ≤ n) →
      (JVal.beqFields xs ys = true ↔ xs = ys) := by
  intro xs
  induction xs with
  | nil => intro ys _; cases ys <;> simp [JVal.beqFields]
  | cons x xs ihl =>
    intro ys hb
    obtain ⟨k1, v1⟩ := x
    cases ys with
    | nil => simp [JVal.beqFields]
    | cons y ys =>
      obtain ⟨k2, v2⟩ := y
      have h1 := ih v1 v2 (hb (k1, v1) (by simp))
      have h2 := ihl ys (fun z hz => hb z (by simp [hz]))
      simp [JVal.beqFields, h1, h2, and_assoc]

theorem JVal.beq_iff_eq : ∀ a b : JVal, JVal.beq a b = true ↔ a = b := by
  have main : ∀ (n : ℕ) (a b : JVal), sizeOf a ≤ n →
      (JVal.beq a b = true ↔ a = b) := by
    intro n
    induction n with
    | zero =>
      intro a b h
      exact absurd h (by cases a <;> simp)
    | succ n ih =>
      intro a b h
      cases a with
      | undefined => cases b <;> simp [JVal.beq]
      | null => cases b <;> simp [JVal.beq]
      | bool a => cases b <;> simp [JVal.beq]
      | num m e => cases b <;> simp [JVal.beq]
      | str s => cases b <;> simp [JVal.beq]
      | arr xs =>
        cases b <;> simp [JVal.beq]
        case arr ys =>
          refine JVal.beqList_iff n ih xs ys (fun x hx => ?_)
          have h1 : sizeOf x < sizeOf (JVal.arr xs) := by
            have := List.sizeOf_lt_of_mem hx
            simp only [JVal.arr.sizeOf_spec]
            omega
          omega
      | obj fs =>
        cases b <;> simp [JVal.beq]
        case obj gs =>
          refine JVal.beqFields_iff n ih fs gs (fun x hx => ?_)
          have h1 : sizeOf x.2 < sizeOf (JVal.obj fs) := by
            have hm := List.sizeOf_lt_of_mem hx
            obtain ⟨k, v⟩ := x
            simp only [JVal.obj.sizeOf_spec]
            simp only [Prod.mk.sizeOf_spec] at hm
            omega
          omega
  exact fun a b => main (sizeOf a) a b le_rfl

instance : DecidableEq JVal := fun a b =>
  decidable_of_iff (JVal.beq a b = true) (JVal.beq_iff_eq a b)

instance : DecidableEq (Except String JVal) := fun a b =>
  match a, b with
  | .error x, .error y =>
      if h : x = y then isTrue (by rw [h]) else isFalse (by simp [h])
  | .ok x, .ok y =>
      if h : x = y then isTrue (by rw [h]) else isFalse (by simp [h])
  | .error _, .ok _ => isFalse (by simp)
  | .ok _, .error _ => isFalse (by simp)

/-- JavaScript truthiness of a `JVal`. -/
def truthy : JVal → Bool
  | .undefined => false
  | .null => false
  | .bool b => b
  | .num m _ => m ≠ 0
  | .str s => s ≠ ""
  | .arr _ => true
  | .obj _ => true

/-- Last-wins object field lookup, matching `JSON.parse`'s duplicate-key
behaviour; a missing field reads as `undefined`. -/
def objLookup (fs : List (String × JVal)) (k : String) : JVal :=
  match fs with
  | [] => .undefined
  | (k', v) :: rest =>
      let r := objLookup rest k
      if r = .undefined then (if k' = k then v else .undefined) else r

/-- Non-throwing member access `v[i]` for receivers that are not
`null`/`undefined` (JavaScript returns `undefined` for misses). -/
def jsIdx : JVal → Nat → JVal
  | .arr xs, i => xs.getD i .undefined
  | .obj fs, i => objLookup fs (toString i)
  | .str s, i => match s.data.get? i with
      | some c => .str (String.mk [c])
      | none => .undefined
  | _, _ => .undefined

/-- Non-throwing named-field access for receivers that are not
`null`/`undefined`. -/
def jsField : JVal → String → JVal
  | .obj fs, k => objLookup fs k
  | _, _ => .undefined

/-- Member access `v[i]`, throwing a `TypeError` on `null`/`undefined`
receivers as JavaScript does. -/
def jsIdxE (v : JVal) (i : Nat) : Except String JVal :=
  match v with
  | .undefined => .error "TypeError: cannot read properties of undefined"
  | .null => .error "TypeError: cannot read properties of null"
  | _ => .ok (jsIdx v i)

/-- Named-field access `v.k`, throwing on `null`/`undefined` receivers. -/
def jsFieldE (v : JVal) (k : String) : Except String JVal :=
  match v with
  | .undefined => .error "TypeError: cannot read properties of undefined"
  | .null => .error "TypeError: cannot read properties of null"
  | _ => .ok (jsField v k)

/-- Optional-chaining access `v?.[i]`: `undefined` when the receiver is
`null`/`undefined`, ordinary access otherwise. -/
def jsOptIdx (v : JVal) (i : Nat) : JVal :=
  match v with
  | .undefined => .undefined
  | .null => .undefined
  | _ => jsIdx v i

/-- JavaScript `a || b` specialised to the uses in the source. -/
def jsOr (a b : JVal) : JVal := if truthy a then a else b

/-! ### A JSON parser

Executable model of `JSON.parse` (strings, the standard escapes, numbers
with optional fraction/exponent, arrays, objects, and the four JSON
whitespace characters). Recursion is by fuel; `Json.parse` supplies enough
fuel for any input of the given length. -/

/-- Whitespace accepted between JSON tokens (as in the JSON grammar). -/
def isJsonWs (c : Char) : Bool :=
  c = ' ' ∨ c = '\t' ∨ c = '\n' ∨ c = '\r'

/-- Drop leading JSON whitespace. -/
def skipWs (cs : List Char) : List Char := cs.dropWhile isJsonWs

/-- Value of a hexadecimal digit, if any. -/
def hexDigitVal (c : Char) : Option Nat :=
  if '0' ≤ c ∧ c ≤ '9' then some (c.toNat - '0'.toNat)
  else if 'a' ≤ c ∧ c ≤ 'f' then some (c.toNat - 'a'.toNat + 10)
  else if 'A' ≤ c ∧ c ≤ 'F' then some (c.toNat - 'A'.toNat + 10)
  else none

/-- Parse the body of a JSON string literal (the opening quote already
consumed); returns the decoded characters and the input after the closing
quote. -/
def parseStrBody : List Char → Option (List Char × List Char)
  | [] => none
  | '"' :: rest => some ([], rest)
  | '\\' :: 'u' :: a :: b :: c :: d :: rest => do
      let va ← hexDigitVal a
      let vb ← hexDigitVal b
      let vc ← hexDigitVal c
      let vd ← hexDigitVal d
      let n := ((va * 16 + vb) * 16 + vc) * 16 + vd
      let ch := if h : n.isValidChar then Char.ofNatAux n h else '�'
      let (s, r) ← parseStrBody rest
      pure (ch :: s, r)
  | '\\' :: e :: rest => do
      let ch ← match e with
        | '"' => some '"'
        | '\\' => some '\\'
        | '/' => some '/'
        | 'b' => some '\x08'
        | 'f' => some '\x0c'
        | 'n' => some '\n'
        | 'r' => some '\r'
        | 't' => some '\t'
        | _ => none
      let (s, r) ← parseStrBody rest
      pure (ch :: s, r)
  | c :: rest => do
      let (s, r) ← parseStrBody rest
      pure (c :: s, r)

/-- Digits of a decimal number read left to right into a natural. -/
def digitsToNat (ds : List Char) : Nat :=
  ds.foldl (fun acc c => acc * 10 + (c.toNat - '0'.toNat)) 0

/-- Parse a JSON number (grammar: optional minus, integer part without
leading zeros, optional fraction, optional exponent), returning it as a
mantissa/exponent pair. -/
def parseNum (cs : List Char) : Option (JVal × List Char) :=
  let (neg, cs1) := match cs with
    | '-' :: rest => (true, rest)
    | _ => (false, cs)
  let (intDs, cs2) := cs1.span Char.isDigit
  if intDs = [] then none
  else if intDs.length > 1 ∧ intDs.headI = '0' then none
  else
    let (fracDs, cs3) := match cs2 with
      | '.' :: rest => rest.span Char.isDigit
      | _ => ([], cs2)
    if cs2 ≠ cs3 ∧ fracDs = [] then none
    else
      let expo? : Option (Int × List Char) := match cs3 with
        | 'e' :: rest | 'E' :: rest =>
            let (esign, rest1) := match rest with
              | '+' :: r => ((1 : Int), r)
              | '-' :: r => ((-1 : Int), r)
              | _ => ((1 : Int), rest)
            let (expDs, rest2) := rest1.span Char.isDigit
            if expDs = [] then none else some (esign * digitsToNat expDs, rest2)
        | _ => some (0, cs3)
      match expo? with
      | none => none
      | some (e, cs4) =>
          let mantissa : Int := digitsToNat (intDs ++ fracDs)
          let mantissa := if neg then -mantissa else mantissa
          some (.num mantissa (e - fracDs.length), cs4)

/-- Check for an exact leading keyword. -/
def keyword (pat : List Char) (cs : List Char) : Option (List Char) :=
  match pat, cs with
  | [], rest => some rest
  | p :: ps, c :: rest => if p = c then keyword ps rest else none
  | _ :: _, [] => none

mutual

/-- Parse one JSON value (fuel-bounded). -/
def parseJV : Nat → List Char → Option (JVal × List Char)
  | 0, _ => none
  | fuel + 1, cs =>
    match skipWs cs with
    | [] => none
    | c :: rest =>
      if c = 'n' then (keyword ['u', 'l', 'l'] rest).map (fun r => (.null, r))
      else if c = 't' then (keyword ['r', 'u', 'e'] rest).map (fun r => (.bool true, r))
      else if c = 'f' then (keyword ['a', 'l', 's', 'e'] rest).map (fun r => (.bool false, r))
      else if c = '"' then (parseStrBody rest).map (fun (s, r) => (.str (String.mk s), r))
      else if c = '[' then
        match skipWs rest with
        | ']' :: r => some (.arr [], r)
        | _ => parseArrItems fuel rest []
      else if c = '\x7b' then
        match skipWs rest with
        | '\x7d' :: r => some (.obj [], r)
        | _ => parseObjItems fuel rest []
      else if c = '-' ∨ c.isDigit then parseNum (c :: rest)
      else none

/-- Parse the comma-separated items of a nonempty JSON array, then the
closing bracket. -/
def parseArrItems : Nat → List Char → List JVal → Option (JVal × List Char)
  | 0, _, _ => none
  | fuel + 1, cs, acc =>
    match parseJV fuel cs with
    | none => none
    | some (v, rest) =>
      match skipWs rest with
      | ',' :: r => parseArrItems fuel r (acc ++ [v])
      | ']' :: r => some (.arr (acc ++ [v]), r)
      | _ => none

/-- Parse the comma-separated members of a nonempty JSON object, then the
closing brace. -/
def parseObjItems : Nat → List Char → List (String × JVal) → Option (JVal × List Char)
  | 0, _, _ => none
  | fuel + 1, cs, acc =>
    match skipWs cs with
    | '"' :: rest =>
      match parseStrBody rest with
      | none => none
      | some (k, rest1) =>
        match skipWs rest1 with
        | ':' :: rest2 =>
          match parseJV fuel rest2 with
          | none => none
          | some (v, rest3) =>
            let acc := acc ++ [(String.mk k, v)]
            match skipWs rest3 with
            | ',' :: r => parseObjItems fuel r acc
            | '\x7d' :: r => some (.obj acc, r)
            | _ => none
        | _ => none
    | _ => none

end

/-- Model of `JSON.parse`: parse one value and require only whitespace to
follow; `none` models a thrown `SyntaxError`. -/
def Json.parse (s : String) : Option JVal :=
  match parseJV (2 * s.data.length + 2) s.data with
  | some (v, rest) => if skipWs rest = [] then some v else none
  | none => none

/-! ### Envelope cleaning (`cleanGoogleResponse` and friends) -/

/-- Leading-match test on character lists (model of `String.startsWith`). -/
def hasLead : List Char → List Char → Bool
  | [], _ => true
  | _ :: _, [] => false
  | p :: ps, c :: cs => p = c && hasLead ps cs

/-- Model of JavaScript `String.prototype.trim` on character lists. -/
def jsTrimChars (cs : List Char) : List Char :=
  ((cs.dropWhile Char.isWhitespace).reverse.dropWhile Char.isWhitespace).reverse

/-- The inert trailing comment marker some responses append. -/
def commentMarker : List Char := '/' :: '*' :: '"' :: '"' :: '*' :: '/' :: []

/-- The four-character anti-hijacking guard some responses are prefixed
with. -/
def guardMarker : List Char := ')' :: ']' :: '\x7d' :: '\x27' :: []

/-- Does the list end with the trailing comment marker. -/
def endsWithMarker (r : List Char) : Bool := hasLead commentMarker.reverse r.reverse

/-- Model of `cleaned.replace(/\/\*""\*\/\s*$/, '')`: remove one trailing
comment marker together with whitespace after it. -/
def stripTrailingComment (cs : List Char) : List Char :=
  let r := (cs.reverse.dropWhile Char.isWhitespace).reverse
  if endsWithMarker r then r.take (r.length - 6) else cs

/-- Model of `cleaned.replace(/^\)\]\}\'[\s\n]*/, '')`: remove one leading
guard together with whitespace after it. -/
def stripLeadingGuard (cs : List Char) : List Char :=
  if hasLead guardMarker cs then (cs.drop 4).dropWhile Char.isWhitespace else cs

/-- Model of the decoder's `cleanGoogleResponse` (lines 645-652): trim,
strip the trailing inert comment, strip the leading guard. -/
def cleanGoogleResponse (s : String) : String :=
  String.mk (stripLeadingGuard (stripTrailingComment (jsTrimChars s.data)))

/-- Model of the HTML-document test of lines 665-671 (`<!DOCTYPE`, `<html`,
`<HTML`). -/
def looksLikeHtml (s : String) : Bool :=
  hasLead ('<' :: '!' :: 'D' :: 'O' :: 'C' :: 'T' :: 'Y' :: 'P' :: 'E' :: []) s.data
  || hasLead ('<' :: 'h' :: 't' :: 'm' :: 'l' :: []) s.data
  || hasLead ('<' :: 'H' :: 'T' :: 'M' :: 'L' :: []) s.data

/-- Modelled from the spec: `unstringifyGoogleXrhResponse` from
`utils/misc-utils.js` is not part of the sources; per spec §4.1 step 4 it
decodes a string-encoded sub-document as its own parse attempt
(guard-strip + parse), throwing (`none` here) when parsing fails or the
input is not a string. -/
def unstringifyGoogleXrhResponse : JVal → Option JVal
  | .str s => Json.parse (String.mk (stripLeadingGuard s.data))
  | _ => none

/-- Model of the manual recovery of lines 736-747, used when
`unstringifyGoogleXrhResponse` fails on the wrapper field: strip the guard,
trim, drop one trailing comment marker, then parse. -/
def manualUnwrapD (s : String) : Option JVal :=
  let c1 := jsTrimChars (stripLeadingGuard s.data)
  let c2 := if endsWithMarker c1 then c1.take (c1.length - 6) else c1
  Json.parse (String.mk c2)

/-- Decode the wrapper field `jsonObject.d` (lines 726-757): try
`unstringifyGoogleXrhResponse`, then the manual guard-strip-and-retry. -/
def unwrapD (d : JVal) : Option JVal :=
  match unstringifyGoogleXrhResponse d with
  | some data => some data
  | none =>
    match d with
    | .str s => manualUnwrapD s
    | _ => none

/-- Model of the three parse attempts of lines 674-706 (parse the cleaned
text; re-clean and parse; treat the whole cleaned text as a string-encoded
payload, producing the synthetic wrapper object of line 689). -/
def parseAttempts (js : String) : Option JVal :=
  match Json.parse js with
  | some jo => some jo
  | none =>
    let js2 := cleanGoogleResponse js
    match Json.parse js2 with
    | some jo => some jo
    | none =>
      match unstringifyGoogleXrhResponse (.str js2) with
      | some data => some (.obj [("d", .str js2), ("_directData", data)])
      | none => none

/-! ### The wire decoder (`parseSearchPlacesResponseBody`) -/

/-- The hard decode errors of `parseSearchPlacesResponseBody`, one
constructor per return-with-error site: empty body (line 659), HTML body
(line 665), no parse attempt succeeded (line 700), wrapper field present
but undecodable (line 752), and a `TypeError` thrown during extraction and
caught at line 841. -/
inductive DecodeErr where
  | emptyBody
  | notJson
  | unparseable
  | wrappedUnparseable
  | extractionFailure (msg : String)
deriving DecidableEq

/-- Modelled from the spec: `fixFloatNumber` from `utils/misc-utils.js` is
not part of the sources; the spec requires coordinate values to be
normalized "from the producer's fixed-point integer encoding into floating
degrees using a documented scale-correction (divide-by-known-factor)"; the
factor is 10^7 here and non-numeric inputs pass through unchanged. -/
def fixFloatNumber : JVal → JVal
  | .num m e => .num m (e - 7)
  | v => v

/-- The structured address breakdown read at fixed offsets (lines
603-611). -/
structure AddressParsed where
  neighborhood : JVal
  street : JVal
  city : JVal
  postalCode : JVal
  state : JVal
  countryCode : JVal
deriving DecidableEq

/-- One decoded Record as produced by `parseJsonResult`. -/
structure PlacePagination where
  placeId : JVal
  coords : JVal
  addressParsed : AddressParsed
  isAdvertisement : Bool
  website : JVal
  categories : JVal
deriving DecidableEq

/-- Model of `parseJsonResult` (lines 595-627): positional, defensive field
extraction from one place-shaped value; `none` models the JavaScript
`undefined` returned for a falsy input. -/
def parseJsonResult (placeData : JVal) (isAdvertisement : Bool) : Option PlacePagination :=
  if ¬ truthy placeData then none
  else
    let addressDetail := jsOptIdx (jsIdx placeData 183) 1
    let coordsArr := jsIdx placeData 9
    some
      { placeId := jsIdx placeData 78
        coords :=
          if truthy coordsArr then
            .obj [("lat", fixFloatNumber (jsIdx coordsArr 2)),
                  ("lng", fixFloatNumber (jsIdx coordsArr 3))]
          else .obj [("lat", .null), ("lng", .null)]
        addressParsed :=
          ⟨jsOptIdx addressDetail 1, jsOptIdx addressDetail 2, jsOptIdx addressDetail 3,
           jsOptIdx addressDetail 4, jsOptIdx addressDetail 5, jsOptIdx addressDetail 6⟩
        isAdvertisement := isAdvertisement
        website := jsOr (jsOptIdx (jsIdx placeData 7) 0) .null
        categories := jsIdx placeData 13 }

/-- Model of `isPlaceDataCandidate` (lines 779-782): an array whose slot 9
is an array of length at least 2 and whose own length exceeds 50. -/
def isPlaceDataCandidate (v : JVal) : Bool :=
  match v with
  | .arr xs =>
      (match xs.getD 9 .undefined with
       | .arr ys => decide (2 ≤ ys.length)
       | _ => false) && decide (50 < xs.length)
  | _ => false

/-- Model of `collectPlacesRecursively` (lines 786-804): bounded recursive
structural search. `fuel` stands for `maxDepth + 1 - depth`, so the initial
call (depth 0, maxDepth 6) has fuel 7 and nodes deeper than `maxDepth` are
not visited. A candidate node is collected without descending into it; the
`[null, candidate, …]` wrapper additionally contributes `node[1]` before
the children are traversed in document order. -/
def collectPlaces : Nat → JVal → List JVal
  | 0, _ => []
  | fuel + 1, node =>
    match node with
    | .arr xs =>
      if isPlaceDataCandidate (.arr xs) then [.arr xs]
      else
        (if 2 ≤ xs.length ∧ xs.getD 0 .undefined = .null ∧ isPlaceDataCandidate (xs.getD 1 .undefined)
         then [xs.getD 1 .undefined] else [])
        ++ (xs.map (fun c => collectPlaces fuel c)).flatten
    | _ => []

/-- Model of `const ads = (data[2] && data[2][1] && data[2][1][0]) || []`
(line 765), including the `TypeError` thrown when `data` is
`null`/`undefined`. -/
def adsOf (data : JVal) : Except String JVal :=
  match jsIdxE data 2 with
  | .error m => .error m
  | .ok e1 =>
    if ¬ truthy e1 then .ok (.arr [])
    else
      let e2 := jsIdx e1 1
      if ¬ truthy e2 then .ok (.arr [])
      else
        let e3 := jsIdx e2 0
        .ok (if truthy e3 then e3 else .arr [])

/-- Model of the `ads.forEach` loop (lines 767-774): slot 15 of each entry
is parsed with `isAdvertisement = true`; reading slot 15 of a
`null`/`undefined` entry throws, aborting the extraction with the partial
list collected so far. -/
def adsLoop : List JVal → List PlacePagination → List PlacePagination × Option String
  | [], acc => (acc, none)
  | ad :: rest, acc =>
    match jsIdxE ad 15 with
    | .error m => (acc, some m)
    | .ok p =>
      match parseJsonResult p true with
      | some pd => adsLoop rest (acc ++ [pd])
      | none => adsLoop rest acc

/-- Model of the organic-results loop (lines 817-836): parse each found
candidate; keep those with a truthy id not seen before in this decode
call; drop the rest silently. -/
def organicLoop : List JVal → List JVal → List PlacePagination → List PlacePagination
  | [], _, acc => acc
  | r :: rest, seen, acc =>
    match parseJsonResult r false with
    | some pd =>
      if truthy pd.placeId then
        if pd.placeId ∈ seen then organicLoop rest seen acc
        else organicLoop rest (pd.placeId :: seen) (acc ++ [pd])
      else organicLoop rest seen acc
    | none => organicLoop rest seen acc

/-- Result of one decode call: the ordered Records plus an optional hard
error (the source returns `{ placesPaginationData, error }`). -/
structure ParseResult where
  placesPaginationData : List PlacePagination
  error : Option DecodeErr
deriving DecidableEq

/-- Model of the `SearchPage` extraction phase (lines 764-840) applied to
the located payload `data`: advertisements first, then the bounded
structural search with id-deduplication; a thrown `TypeError` is caught by
the surrounding `try` (line 841) and reported together with the records
collected so far. -/
def searchExtract (data : JVal) : ParseResult :=
  match adsOf data with
  | .error m => ⟨[], some (.extractionFailure m)⟩
  | .ok adsVal =>
    match adsVal with
    | .arr ads =>
      match adsLoop ads [] with
      | (acc, some m) => ⟨acc, some (.extractionFailure m)⟩
      | (acc, none) =>
        let cands := collectPlaces 7 data
        if cands.isEmpty then ⟨acc, none⟩
        else ⟨organicLoop cands [] acc, none⟩
    | _ => ⟨[], some (.extractionFailure "TypeError: ads.forEach is not a function")⟩

/-- Model of locating the payload for a `SearchPage` response (lines
723-762): use the wrapper field `d` when truthy (unstringify, then the
manual retry, else report the wrapped-parse failure), otherwise the
top-level tree itself; reading `.d` off a `null` payload throws into the
surrounding `try`. -/
def searchBranch (jo : JVal) : ParseResult :=
  match jsFieldE jo "d" with
  | .error m => ⟨[], some (.extractionFailure m)⟩
  | .ok d =>
    if truthy d then
      match unwrapD d with
      | some data => searchExtract data
      | none => ⟨[], some .wrappedUnparseable⟩
    else searchExtract jo

/-- Model of the `isAllPacesNoSearch` branch (lines 710-718): exactly one
place-shaped value is read from slot 6 of the payload; its absence is an
empty, non-error result. -/
def detailBranch (jo : JVal) : ParseResult :=
  match jsIdxE jo 6 with
  | .error m => ⟨[], some (.extractionFailure m)⟩
  | .ok v =>
    match parseJsonResult v false with
    | some pd => ⟨[pd], none⟩
    | none => ⟨[], none⟩

/-- Model of `parseSearchPlacesResponseBody` (lines 636-849). -/
def parseSearchPlacesResponseBody (responseBodyText : String)
    (isAllPacesNoSearch : Bool) : ParseResult :=
  let jsonString := cleanGoogleResponse responseBodyText
  if jsonString = "" then ⟨[], some .emptyBody⟩
  else if looksLikeHtml jsonString then ⟨[], some .notJson⟩
  else
    match parseAttempts jsonString with
    | none => ⟨[], some .unparseable⟩
    | some jo =>
      if isAllPacesNoSearch then detailBranch jo else searchBranch jo


/-! ### External collaborators of the controller -/

/-- Coordinates read back out of a coordinates object: present only when
both members are numbers. -/
def coordsLatLng (coordinates : JVal) : Option (JVal × JVal) :=
  match jsField coordinates "lat", jsField coordinates "lng" with
  | .num a b, .num c d => some (.num a b, .num c d)
  | _, _ => none

/-- Does a coordinates value carry an actual point. -/
def hasLatLng (coordinates : JVal) : Bool := (coordsLatLng coordinates).isSome

/-- Modelled from the spec §4.3: a constituent polygon is abstracted as its
point-membership predicate; a geofence is the list of constituent
polygons of a MultiPolygon. -/
def MultiPolygon := List ((JVal × JVal) → Bool)

/-- Modelled from the spec §4.3 (`checkInPolygon` lives in
`utils/polygon.js`, outside the sources): true whenever the geofence or the
point is absent (fail-open), otherwise true iff the point lies within any
constituent polygon. -/
def checkInPolygon (geolocation : Option MultiPolygon) (coordinates : JVal) : Bool :=
  match geolocation with
  | none => true
  | some polys =>
    match coordsLatLng coordinates with
    | none => true
    | some p => polys.any (fun poly => poly p)

/-- Modelled from the spec §3 and §4.5: the process-wide coordinate cache
(`helper-classes/places_cache.js`, outside the sources); each entry maps a
stable id to coordinates and the search key that last saw them. -/
structure PlacesCache where
  entries : List (JVal × JVal × String)

/-- Modelled from the spec §4.5: `getLocation` returns the cached
coordinates, or `undefined` for an unknown id. -/
def PlacesCache.getLocation (c : PlacesCache) (placeId : JVal) : JVal :=
  match c.entries.find? (fun e => decide (e.1 = placeId)) with
  | some e => e.2.1
  | none => .undefined

/-- Modelled from the spec §4.5: `addLocation` overwrites any prior entry
when given non-null coordinates and leaves the prior entry alone otherwise
(never downgrade a known location to unknown). -/
def PlacesCache.addLocation (c : PlacesCache) (placeId coordinates : JVal)
    (searchKey : String) : PlacesCache :=
  if hasLatLng coordinates then
    ⟨(placeId, coordinates, searchKey) :: c.entries.filter (fun e => decide (e.1 ≠ placeId))⟩
  else c

/-- First-match count lookup in an association list of counters. -/
def getCount : List (String × Nat) → String → Nat
  | [], _ => 0
  | (k', n) :: rest, k => if k' = k then n else getCount rest k

/-- Increment the first entry for the key, appending a fresh entry when the
key is absent. -/
def bumpCount : List (String × Nat) → String → List (String × Nat)
  | [], k => [(k, 1)]
  | (k', n) :: rest, k =>
      if k' = k then (k', n + 1) :: rest else (k', n) :: bumpCount rest k

/-- Decrement the first entry for the key (no entry is created for an
absent key; the source only decrements keys it has just incremented). -/
def decCount : List (String × Nat) → String → List (String × Nat)
  | [], _ => []
  | (k', n) :: rest, k =>
      if k' = k then (k', n - 1) :: rest else (k', n) :: decCount rest k

/-- Sum of all per-search counters. -/
def sumCounts (l : List (String × Nat)) : Nat := (l.map Prod.snd).sum

/-- Modelled from the spec §3 and §4.4 together with the field accesses of
lines 192-193 and 217-218: the crawl budget tracker
(`helper-classes/max-crawled-places.js`, outside the sources). Either
limit may be unbounded (`none`). -/
structure MaxCrawledPlacesTracker where
  enqueuedPerSearch : List (String × Nat)
  enqueuedTotal : Nat
  maxPerSearch : Option Nat
  maxTotal : Option Nat

/-- Modelled from the spec §4.4 (`canReserveMore`): read-only check that
both the per-search and the global limit still allow one more enqueue. -/
def MaxCrawledPlacesTracker.canEnqueueMore (t : MaxCrawledPlacesTracker) (k : String) : Bool :=
  (match t.maxPerSearch with
   | none => true
   | some m => decide (getCount t.enqueuedPerSearch k < m)) &&
  (match t.maxTotal with
   | none => true
   | some m => decide (t.enqueuedTotal < m))

/-- Modelled from the spec §4.4 (`tryReserve`): if both limits allow it,
increment both counters and report success, else report failure with the
counters unchanged. -/
def MaxCrawledPlacesTracker.setEnqueued (t : MaxCrawledPlacesTracker) (k : String) :
    Bool × MaxCrawledPlacesTracker :=
  if t.canEnqueueMore k then
    (true, { t with enqueuedPerSearch := bumpCount t.enqueuedPerSearch k,
                    enqueuedTotal := t.enqueuedTotal + 1 })
  else (false, t)

/-- Model of the compensating decrements of lines 217-218
(`enqueuedTotal--; enqueuedPerSearch[searchKey]--`). -/
def MaxCrawledPlacesTracker.decEnqueued (t : MaxCrawledPlacesTracker) (k : String) :
    MaxCrawledPlacesTracker :=
  { t with enqueuedPerSearch := decCount t.enqueuedPerSearch k,
           enqueuedTotal := t.enqueuedTotal - 1 }

/-- The metadata attached to an enqueued place request (`userData`, lines
201-210 and 464-469); fields the DOM-fallback path does not set are
`none`. -/
structure UserData where
  label : String
  searchString : String
  rank : Int
  searchPageUrl : String
  coords : Option JVal
  addressParsed : Option AddressParsed
  isAdvertisement : Option Bool
  categories : Option JVal
deriving DecidableEq

/-- One request handed to the external frontier. -/
structure QueueRequest where
  url : String
  uniqueKey : JVal
  userData : UserData
deriving DecidableEq

/-- The external request frontier, keyed by `uniqueKey` (spec §6); a
forefront request joins the front of the list. -/
structure RequestQueue where
  requests : List QueueRequest
deriving DecidableEq

/-- Model of `requestQueue.addRequest(req, { forefront })`: reports whether
the uniqueness key was already present; a new request joins the front
(forefront) or the back of the queue. -/
def RequestQueue.addRequest (q : RequestQueue) (r : QueueRequest) (forefront : Bool) :
    Bool × RequestQueue :=
  if q.requests.any (fun x => decide (x.uniqueKey = r.uniqueKey)) then (true, q)
  else (false, ⟨if forefront then r :: q.requests else q.requests ++ [r]⟩)

/-- Modelled from the spec (the `Stats` helper class is outside the
sources): the out-of-polygon bookkeeping touched at lines 159-161. -/
structure StatsCounters where
  outOfPolygonCached : Nat
  outOfPolygon : Nat
  outOfPolygonPlaces : List (String × String × JVal)
deriving DecidableEq

/-- Rendering of a `JVal` into the URL template of line 153; string ids
render as themselves (JavaScript number/array formatting is abstracted). -/
def jsToString : JVal → String
  | .undefined => "undefined"
  | .null => "null"
  | .bool b => if b then "true" else "false"
  | .num m e => toString m ++ "e" ++ toString e
  | .str s => s
  | .arr _ => ""
  | .obj _ => ""

/-! ### The crawl frontier controller (`enqueueAllPlaceDetails`) -/

/-- The error record stored into `pageStats.error` at line 131: the decode
error together with the response status and raw body kept for
diagnostics. -/
structure ErrInfo where
  message : DecodeErr
  responseStatus : Nat
  responseBody : String
deriving DecidableEq

/-- Model of the `pageStats` object (lines 325-328). -/
structure PageStats where
  error : Option ErrInfo
  isDataPage : Bool
  enqueued : Nat
  pushed : Nat
  totalEnqueued : Nat
  totalPushed : Nat
  found : Nat
  totalFound : Nat
  pageNum : Nat
deriving DecidableEq

/-- The scraping options and identifiers fixed for one session.
`maxPlacesPerPage` stands for the constant `MAX_PLACES_PER_PAGE` from
`consts.js` (outside the sources, value left as configuration). -/
structure Config where
  searchString : String
  requestUrl : String
  searchPageUrl : String
  geolocation : Option MultiPolygon
  maxAutomaticZoomOut : Option Int
  maxPlacesPerPage : Nat

/-- The per-search budget key (`searchString || request.url`, lines 190 and
525). -/
def Config.searchKey (cfg : Config) : String :=
  if cfg.searchString ≠ "" then cfg.searchString else cfg.requestUrl

/-- The state one `enqueueAllPlaceDetails` session owns: its `pageStats`,
the shared collaborators, and the loop locals of lines 417-419. -/
structure SessState where
  stats : PageStats
  tracker : MaxCrawledPlacesTracker
  queue : RequestQueue
  cache : PlacesCache
  counters : StatsCounters
  numberOfEmptyScrolls : Nat
  lastNumberOfResultsLoadedTotally : Nat
  useDOMFallback : Bool
  startZoom : Int

/-- What the record loop did with the decoded Record at one offset. -/
inductive RecAction where
  | outOfPolygon
  | budgetBreak
  | enqueuedNew
  | duplicate
deriving DecidableEq

/-- One record-loop trace entry: the 0-based offset of the Record in the
decoded sequence, the rank computed for it at line 149, and what happened
to it. -/
structure TraceEntry where
  offset : Nat
  rank : Int
  action : RecAction
deriving DecidableEq

/-- Model of the queue-mode record loop of lines 147-221 (the
`exportPlaceUrls` branch is not modelled; every claim concerns the default
queue mode, where `pushed` stays 0). `i` is the running 0-based `index`;
the returned `Nat` is the local `enqueued` count; the trace records the
rank assigned at each offset. -/
def processRecords (cfg : Config) (pageNumber : Int) :
    Nat → List PlacePagination → SessState → Nat → SessState × Nat × List TraceEntry
  | _, [], st, enq => (st, enq, [])
  | i, pd :: rest, st, enq =>
    let rank : Int := (pageNumber - 1) * 20 + ((i : Int) + 1)
    let coordinates := jsOr pd.coords (st.cache.getLocation pd.placeId)
    let placeUrl := "https://www.google.com/maps/place/?q=place_id:" ++ jsToString pd.placeId
    let st := { st with cache := st.cache.addLocation pd.placeId coordinates cfg.searchString }
    if ¬ checkInPolygon cfg.geolocation coordinates then
      let st := { st with counters :=
        { outOfPolygonCached := st.counters.outOfPolygonCached + 1
          outOfPolygon := st.counters.outOfPolygon + 1
          outOfPolygonPlaces :=
            st.counters.outOfPolygonPlaces ++ [(placeUrl, cfg.searchPageUrl, coordinates)] } }
      let r := processRecords cfg pageNumber (i + 1) rest st enq
      (r.1, r.2.1, ⟨i, rank, .outOfPolygon⟩ :: r.2.2)
    else
      match st.tracker.setEnqueued cfg.searchKey with
      | (false, _) => (st, enq, [⟨i, rank, .budgetBreak⟩])
      | (true, tracker') =>
        let req : QueueRequest :=
          { url := placeUrl
            uniqueKey := pd.placeId
            userData :=
              { label := "PLACE", searchString := cfg.searchString, rank := rank
                searchPageUrl := cfg.searchPageUrl
                coords := some pd.coords
                addressParsed := some pd.addressParsed
                isAdvertisement := some pd.isAdvertisement
                categories := some pd.categories } }
        match st.queue.addRequest req true with
        | (false, queue') =>
          let st := { st with tracker := tracker', queue := queue' }
          let r := processRecords cfg pageNumber (i + 1) rest st (enq + 1)
          (r.1, r.2.1, ⟨i, rank, .enqueuedNew⟩ :: r.2.2)
        | (true, queue') =>
          let st := { st with tracker := tracker'.decEnqueued cfg.searchKey, queue := queue' }
          let r := processRecords cfg pageNumber (i + 1) rest st enq
          (r.1, r.2.1, ⟨i, rank, .duplicate⟩ :: r.2.2)

/-- One decoded response delivered by the transport: the page number parsed
from the request URL's `ech` parameter (line 140), the decode result, and
the raw body and status kept for diagnostics. -/
structure BatchInput where
  pageNumber : Int
  parsed : ParseResult
  responseStatus : Nat
  responseBody : String

/-- Model of the response handler `enqueuePlacesFromResponse` (lines
88-247) from the decode result on: record the decode error (if any) in
`pageStats.error` (line 131), run the queue-mode record loop, then update
the found/enqueued counters (lines 223-228). -/
def processBatch (cfg : Config) (b : BatchInput) (st : SessState) : SessState :=
  let stats1 :=
    match b.parsed.error with
    | some e =>
        { st.stats with isDataPage := true,
                        error := some ⟨e, b.responseStatus, b.responseBody⟩ }
    | none => { st.stats with isDataPage := true }
  let r := processRecords cfg b.pageNumber 0 b.parsed.placesPaginationData
      { st with stats := stats1 } 0
  let n := b.parsed.placesPaginationData.length
  { r.1 with stats :=
    { r.1.stats with
        found := n
        totalFound := r.1.stats.totalFound + n
        enqueued := r.2.1
        totalEnqueued := r.1.stats.totalEnqueued + r.2.1
        pushed := 0 } }

/-- One candidate extracted by `extractPlacesFromDOM` (lines 28-69). -/
structure DomPlace where
  placeId : Option String
  href : String
  title : String
deriving DecidableEq

/-- The place URL built from a DOM link's `href` (lines 449-452). -/
def domPlaceUrl (p : DomPlace) : String :=
  if hasLead ('h' :: 't' :: 't' :: 'p' :: []) p.href.data then p.href
  else "https://www.google.com" ++ p.href

/-- The uniqueness key of the DOM path (line 460,
`domPlace.placeId || placeUrl`; a `null` or empty id falls back to the
URL). -/
def domUniqueKey (p : DomPlace) : JVal :=
  match p.placeId with
  | some s => if s ≠ "" then .str s else .str (domPlaceUrl p)
  | none => .str (domPlaceUrl p)

/-- The request the DOM-fallback path enqueues (lines 461-470): no
coordinate, address, advertisement or category metadata; rank is the
running `totalEnqueued + 1`. -/
def domRequest (cfg : Config) (st : SessState) (p : DomPlace) : QueueRequest :=
  { url := domPlaceUrl p
    uniqueKey := domUniqueKey p
    userData :=
      { label := "PLACE", searchString := cfg.searchString
        rank := ((st.stats.totalEnqueued + 1 : Nat) : Int)
        searchPageUrl := cfg.searchPageUrl
        coords := none, addressParsed := none
        isAdvertisement := none, categories := none } }

/-- Model of the DOM-fallback enqueue loop of lines 447-476: budget-checked
via `setEnqueued` (breaking when it fails), uniqueness key
`placeId || placeUrl`, forefront enqueue, and `userData` without
coordinates, address, advertisement flag or categories. The tracker's
speculative increment is not compensated on duplicates on this path. -/
def processDomPlaces (cfg : Config) : List DomPlace → SessState → SessState
  | [], st => st
  | p :: rest, st =>
    match st.tracker.setEnqueued cfg.searchKey with
    | (false, _) => st
    | (true, tracker') =>
      let req := domRequest cfg st p
      let add := st.queue.addRequest req true
      let st := { st with tracker := tracker', queue := add.2 }
      let st :=
        if ¬ add.1 then
          { st with stats := { st.stats with
              totalEnqueued := st.stats.totalEnqueued + 1
              enqueued := st.stats.enqueued + 1 } }
        else st
      processDomPlaces cfg rest st

/-- External signals sampled by one iteration of the scrolling loop. -/
structure StepInput where
  domPlaces : List DomPlace
  noMoreResults : Bool
  currentZoom : Int
  batch : Option BatchInput

/-- The ways one iteration of the scrolling loop can end the session, in
source order; `decodeErrorStop` models the retryable throw of lines
516-523 (the error, with the raw body, stays in `stats.error`). -/
inductive StopCause where
  | domFallbackExit
  | endOfResults
  | emptyScrollLimit
  | decodeErrorStop
  | budgetExhausted
  | zoomDrift
  | perPageCap
  | noNewResults
deriving DecidableEq

/-- Result of one loop iteration. -/
inductive StepResult where
  | stopped (cause : StopCause) (st : SessState)
  | continued (st : SessState)

/-- The stop cause of an iteration, if it stopped. -/
def StepResult.cause : StepResult → Option StopCause
  | .stopped c _ => some c
  | .continued _ => none

/-- The session state an iteration left behind. -/
def StepResult.state : StepResult → SessState
  | .stopped _ st => st
  | .continued st => st

/-- The DOM-fallback trigger of line 426
(`pageStats.pageNum > 2 && pageStats.totalFound === 0`). -/
def fallbackCond (st : SessState) : Bool :=
  decide (2 < st.stats.pageNum) && decide (st.stats.totalFound = 0)

/-- Stop condition 1 (lines 486-500): the explicit end-of-results page
signal. -/
def cond1 (inp : StepInput) : Bool := inp.noMoreResults

/-- The empty-scroll counter as updated by lines 503-508. -/
def updatedEmptyScrolls (st : SessState) : Nat :=
  if st.lastNumberOfResultsLoadedTotally = st.stats.totalFound
  then st.numberOfEmptyScrolls + 1 else 0

/-- Stop condition 2 (line 511): ten consecutive scrolls without a change
in `totalFound`. -/
def cond2 (st : SessState) : Bool := decide (10 ≤ updatedEmptyScrolls st)

/-- Stop condition 3 (line 516): a pending decode error. -/
def cond3 (st : SessState) : Bool := st.stats.error.isSome

/-- Stop condition 4 (line 525): the budget tracker reports the limit
reached. -/
def cond4 (cfg : Config) (st : SessState) : Bool :=
  ¬ st.tracker.canEnqueueMore cfg.searchKey

/-- Stop condition 5 (lines 531-546): the configured maximum automatic
zoom-out is exceeded relative to the zoom at session start. -/
def cond5 (cfg : Config) (st : SessState) (inp : StepInput) : Bool :=
  match cfg.maxAutomaticZoomOut with
  | some m => decide (m < st.startZoom - inp.currentZoom)
  | none => false

/-- Stop condition 6 (line 548): `totalFound` at or above the per-page
cap. -/
def cond6 (cfg : Config) (st : SessState) : Bool :=
  decide (cfg.maxPlacesPerPage ≤ st.stats.totalFound)

/-- Stop condition 7 (line 558): this step decoded records but none of
them were newly enqueued or pushed. -/
def cond7 (st : SessState) : Bool :=
  decide (0 < st.stats.found) && decide (st.stats.enqueued + st.stats.pushed = 0)

/-- The empty-scroll bookkeeping of lines 503-508, performed even when a
later condition then stops the iteration. -/
def bumpEmptyScrolls (st : SessState) : SessState :=
  { st with numberOfEmptyScrolls := updatedEmptyScrolls st
            lastNumberOfResultsLoadedTotally := st.stats.totalFound }

/-- The scroll action of lines 563-576: increment `pageNum`, then (in the
deterministic interleaving of spec §5 and §9: decoded results are drained
before the next stop-condition check) process the batch the transport
delivers for the new page, if any. -/
def advance (cfg : Config) (st : SessState) (inp : StepInput) : SessState :=
  let st := { st with stats := { st.stats with pageNum := st.stats.pageNum + 1 } }
  match inp.batch with
  | some b => processBatch cfg b st
  | none => st

/-- The checks of lines 483-577 in source order, applied after the
DOM-fallback branch declined to end the iteration. -/
def scrollChecks (cfg : Config) (st0 : SessState) (inp : StepInput) : StepResult :=
  if cond1 inp then .stopped .endOfResults st0
  else
    let st1 := bumpEmptyScrolls st0
    if cond2 st0 then .stopped .emptyScrollLimit st1
    else if cond3 st1 then .stopped .decodeErrorStop st1
    else if cond4 cfg st1 then .stopped .budgetExhausted st1
    else if cond5 cfg st1 inp then .stopped .zoomDrift st1
    else if cond6 cfg st1 then .stopped .perPageCap st1
    else if cond7 st1 then .stopped .noNewResults st1
    else .continued (advance cfg st1 inp)

/-- Setting the `useDOMFallback` flag of line 428 (assigned when the
fallback branch is entered — the flag is never read back by the source). -/
def withFallbackFlag (st : SessState) : SessState := { st with useDOMFallback := true }

/-- One iteration of the main scrolling loop (lines 422-577): the
DOM-fallback branch first (lines 426-481, which sets the `useDOMFallback`
flag and ends the session only when DOM extraction finds places), then the
ordered stop conditions, then the scroll action. -/
def scrollStep (cfg : Config) (st : SessState) (inp : StepInput) : StepResult :=
  if fallbackCond st then
    if ¬ inp.domPlaces.isEmpty then
      .stopped .domFallbackExit (processDomPlaces cfg inp.domPlaces (withFallbackFlag st))
    else scrollChecks cfg (withFallbackFlag st) inp
  else scrollChecks cfg st inp

/-- Run the scrolling loop over a script of per-iteration inputs; a `none`
cause means the script ran out with the loop still going. -/
def runSession (cfg : Config) : SessState → List StepInput → Option StopCause × SessState
  | st, [] => (none, st)
  | st, inp :: rest =>
    match scrollStep cfg st inp with
    | .stopped c st' => (some c, st')
    | .continued st' => runSession cfg st' rest

/-- Initial session state (lines 325-328 and 417-419). -/
def initialState (tracker : MaxCrawledPlacesTracker) (startZoom : Int) : SessState :=
  { stats := { error := none, isDataPage := false, enqueued := 0, pushed := 0,
               totalEnqueued := 0, totalPushed := 0, found := 0, totalFound := 0, pageNum := 1 }
    tracker := tracker
    queue := ⟨[]⟩
    cache := ⟨[]⟩
    counters := ⟨0, 0, []⟩
    numberOfEmptyScrolls := 0
    lastNumberOfResultsLoadedTotally := 0
    useDOMFallback := false
    startZoom := startZoom }

/-- A full `SCROLLING` session: the initial search response is processed
before the loop starts (the waiter of lines 385-386), then the loop runs
on the scripted inputs. -/
def startSession (cfg : Config) (tracker : MaxCrawledPlacesTracker) (startZoom : Int)
    (firstBatch : BatchInput) (inputs : List StepInput) : Option StopCause × SessState :=
  runSession cfg (processBatch cfg firstBatch (initialState tracker startZoom)) inputs

/-- Model of JavaScript `parseInt(·, 10)`: leading whitespace, optional
sign, then a nonempty digit run; `none` models `NaN`. -/
def jsParseInt (s : String) : Option Int :=
  let cs := s.data.dropWhile Char.isWhitespace
  let (neg, cs1) := match cs with
    | '-' :: rest => (true, rest)
    | '+' :: rest => (false, rest)
    | _ => (false, cs)
  let ds := cs1.takeWhile Char.isDigit
  if ds = [] then none
  else some (if neg then -((digitsToNat ds : Nat) : Int) else ((digitsToNat ds : Nat) : Int))

/-- Model of lines 138-140: take the query string (`url.split('?')[1]`),
split it into `key=value` pairs, and `parseInt` the value of `ech`
(percent-decoding is not modelled; the `ech` values of interest are plain
digit runs, which it leaves unchanged). -/
def parseEchFromUrl (url : String) : Option Int :=
  match (url.data.splitOn '?').getD 1 [] with
  | [] => none
  | qs =>
    let pairs := qs.splitOn '&'
    match pairs.find? (fun p => hasLead ('e' :: 'c' :: 'h' :: '=' :: []) p) with
    | some p => jsParseInt (String.mk (p.drop 4))
    | none => none


/-! ### Derived views of the decoder used by the claims -/

/-- The organic portion of a decode call: the deduplicating loop run on the
structural-search candidates alone. -/
def organicRecords (data : JVal) : List PlacePagination :=
  organicLoop (collectPlaces 7 data) [] []

/-- The stream feeding the organic loop: every structural-search candidate
that parses and carries a truthy id, in document order, before
deduplication. -/
def parsedCandidates (data : JVal) : List PlacePagination :=
  (collectPlaces 7 data).filterMap (fun r =>
    match parseJsonResult r false with
    | some pd => if truthy pd.placeId then some pd else none
    | none => none)

/-- The specification's description of the deduplication: keep each id's
first occurrence and drop later duplicates silently. -/
def dedupKeepFirst : List PlacePagination → List JVal → List PlacePagination
  | [], _ => []
  | pd :: rest, seen =>
    if pd.placeId ∈ seen then dedupKeepFirst rest seen
    else pd :: dedupKeepFirst rest (pd.placeId :: seen)

/-- The seven stop conditions of the scrolling loop in the order the
specification lists them, paired with the causes they stop with. -/
def condList (cfg : Config) (st : SessState) (inp : StepInput) : List (Bool × StopCause) :=
  [(cond1 inp, .endOfResults), (cond2 st, .emptyScrollLimit), (cond3 st, .decodeErrorStop),
   (cond4 cfg st, .budgetExhausted), (cond5 cfg st inp, .zoomDrift),
   (cond6 cfg st, .perPageCap), (cond7 st, .noNewResults)]

/-- The first condition of an ordered condition list that holds. -/
def firstCause : List (Bool × StopCause) → Option StopCause
  | [] => none
  | (b, c) :: rest => if b then some c else firstCause rest

/-! ### Concrete fixtures for witnesses and counterexamples -/

/-- A minimal place-shaped candidate array: 79 slots, coordinates at slot
9, id at slot 78 (so its length 79 exceeds 50). -/
def mkCandidate (pid : String) : JVal :=
  .arr (((List.replicate 79 JVal.null).set 9
    (.arr [.null, .null, .num 123456789 0, .num 987654321 0])).set 78 (.str pid))

/-- A payload containing the same candidate twice: once bare, once inside
the `[null, candidate]` wrapper (which the search also descends into, so
the candidate is found three times before deduplication). -/
def exDupPayload : JVal := .arr [mkCandidate "X", .arr [.null, mkCandidate "X"]]

/-- An advertisement entry carrying a place at slot 15. -/
def exAdEntry : JVal := .arr ((List.replicate 16 JVal.null).set 15 (mkCandidate "X"))

/-- A payload whose ads slot (`data[2][1][0]`) holds one advertisement for
id `X` while the same place also appears organically. -/
def exAdPayload : JVal :=
  .arr [.null, .null, .arr [.null, .arr [.arr [exAdEntry]]], mkCandidate "X"]

/-- One decoded Record per scenario index, with distinct ids and inline
coordinates. -/
def scenarioRecord (n : Nat) : PlacePagination :=
  { placeId := .str ("place-" ++ toString n)
    coords := .obj [("lat", .num (10 + (n : Int)) (-7)), ("lng", .num (20 + (n : Int)) (-7))]
    addressParsed := ⟨.undefined, .undefined, .undefined, .undefined, .undefined, .undefined⟩
    isAdvertisement := false
    website := .null
    categories := .arr [.str "restaurant"] }

/-- A decoded batch of the five scenario Records, tagged with a page
number. -/
def scenarioBatch (pn : Int) : BatchInput :=
  { pageNumber := pn
    parsed := ⟨(List.range 5).map scenarioRecord, none⟩
    responseStatus := 200
    responseBody := "raw-body" }

/-- Session configuration for the scenario runs: no geofence, no zoom
bound, per-page cap 200, queue mode. -/
def scenarioCfg : Config :=
  { searchString := "restaurants"
    requestUrl := "https://www.google.com/maps/search/restaurants"
    searchPageUrl := "https://www.google.com/maps/search/restaurants"
    geolocation := none
    maxAutomaticZoomOut := none
    maxPlacesPerPage := 200 }

/-- An unbounded budget tracker with clean counters. -/
def scenarioTracker : MaxCrawledPlacesTracker := ⟨[], 0, none, none⟩

/-- The scripted loop inputs of the C2 scenario: ten further steps, each
delivering the same five Records again (pages 2 through 11). -/
def scenarioInputs : List StepInput :=
  (List.range 10).map (fun k =>
    { domPlaces := [], noMoreResults := false, currentZoom := 10
      batch := some (scenarioBatch ((k : Int) + 2)) })

/-- The C2 scenario run: five fresh Records on step 1, the same five (by
id) on every later step. -/
def scenarioRun : Option StopCause × SessState :=
  startSession scenarioCfg scenarioTracker 10 (scenarioBatch 1) scenarioInputs

/-- An empty decoded batch (a response with no places and no error). -/
def emptyBatch (pn : Int) : BatchInput :=
  { pageNumber := pn, parsed := ⟨[], none⟩, responseStatus := 200, responseBody := "" }

/-- Loop input with no DOM places and an empty decoded batch. -/
def emptyIn (pn : Int) : StepInput :=
  { domPlaces := [], noMoreResults := false, currentZoom := 10
    batch := some (emptyBatch pn) }

/-- The C9 falsifying run: nothing decodes on pages 1-3, so the fallback
branch triggers (and finds no DOM places) on iteration 3; then a wire
response with one Record arrives on page 4 and is processed normally. -/
def fallbackRun : Option StopCause × SessState :=
  startSession scenarioCfg scenarioTracker 10 (emptyBatch 1)
    [emptyIn 2, emptyIn 3,
     { domPlaces := [], noMoreResults := false, currentZoom := 10
       batch := some { pageNumber := 4, parsed := ⟨[scenarioRecord 0], none⟩,
                       responseStatus := 200, responseBody := "" } }]

/-- A session state sitting at `pageNum = 3` with nothing found yet (as
after two scrolls whose responses decoded no places). -/
def fallbackSt : SessState :=
  { initialState scenarioTracker 10 with
    stats := { (initialState scenarioTracker 10).stats with pageNum := 3 } }

/-- A loop input offering one DOM-extracted place. -/
def fallbackInput : StepInput :=
  { domPlaces := [⟨some "dom-pid", "/maps/place/Foo/data=!1sabc", "Foo"⟩]
    noMoreResults := false, currentZoom := 10, batch := none }


/-- The coordinates the record loop resolves for a Record (line 151). -/
def recCoordinates (st : SessState) (pd : PlacePagination) : JVal :=
  jsOr pd.coords (st.cache.getLocation pd.placeId)

/-- Whether the frontier already holds the Record's uniqueness key. -/
def recAlreadyPresent (st : SessState) (pd : PlacePagination) : Bool :=
  st.queue.requests.any (fun x => decide (x.uniqueKey = pd.placeId))

/-! ### Facts about the parser used by the decoder claims -/

theorem hasLead_head {p : Char} {ps cs : List Char}
    (h : hasLead (p :: ps) cs = true) : ∃ rest, cs = p :: rest := by
  cases cs with
  | nil => simp [hasLead] at h
  | cons c cs' =>
    simp only [hasLead, Bool.and_eq_true, decide_eq_true_eq] at h
    exact ⟨cs', by rw [h.1]⟩

theorem parseJV_head_lt (rest : List Char) :
    ∀ fuel, parseJV fuel ('<' :: rest) = none := by
  intro fuel
  cases fuel with
  | zero => rfl
  | succ f =>
    have hws : skipWs ('<' :: rest) = '<' :: rest := by
      simp [skipWs, List.dropWhile_cons, show isJsonWs '<' = false from by decide]
    simp only [parseJV, hws]
    rw [if_neg (by decide), if_neg (by decide), if_neg (by decide), if_neg (by decide),
        if_neg (by decide), if_neg (by decide), if_neg (by decide)]

theorem Json.parse_head_lt {s : String} {rest : List Char}
    (h : s.data = '<' :: rest) : Json.parse s = none := by
  unfold Json.parse
  rw [h, parseJV_head_lt]

theorem Json.parse_of_html {s : String} (h : looksLikeHtml s = true) :
    Json.parse s = none := by
  unfold looksLikeHtml at h
  simp only [Bool.or_eq_true] at h
  rcases h with (h' | h') | h' <;>
    · obtain ⟨rest, hr⟩ := hasLead_head h'
      exact Json.parse_head_lt hr

theorem Json.parse_nonempty {s : String} {v : JVal}
    (h : Json.parse s = some v) : s ≠ "" := by
  intro he
  rw [he, show Json.parse "" = none from by decide] at h
  exact Option.noConfusion h

theorem jsFieldE_ok {v : JVal} (k : String) (h1 : v ≠ .null) (h2 : v ≠ .undefined) :
    jsFieldE v k = .ok (jsField v k) := by
  cases v <;> simp [jsFieldE] at h1 h2 ⊢

theorem jsIdxE_ok {v : JVal} (i : Nat) (h1 : v ≠ .null) (h2 : v ≠ .undefined) :
    jsIdxE v i = .ok (jsIdx v i) := by
  cases v <;> simp [jsIdxE] at h1 h2 ⊢

theorem parseJsonResult_falsy {v : JVal} (b : Bool) (h : truthy v = false) :
    parseJsonResult v b = none := by
  simp [parseJsonResult, h]

/-! ### Claim C6 — empty and HTML bodies are hard errors -/

/-- Claim C6: a body that is empty after envelope-artifact stripping
decodes to no Records with the hard error `emptyBody`; a body that begins
with an HTML document marker decodes to no Records with the hard error
`notJson`; both results carry an error and so stay distinguishable from an
empty-but-successful decode. -/
theorem emptyAndHtmlBodies (body1 body2 : String) (kind1 kind2 : Bool)
    (h1 : cleanGoogleResponse body1 = "")
    (h2 : looksLikeHtml (cleanGoogleResponse body2) = true) :
    parseSearchPlacesResponseBody body1 kind1 = ⟨[], some .emptyBody⟩
    ∧ parseSearchPlacesResponseBody body2 kind2 = ⟨[], some .notJson⟩
    ∧ (parseSearchPlacesResponseBody body1 kind1).error ≠ none
    ∧ (parseSearchPlacesResponseBody body2 kind2).error ≠ none := by
  have hne : cleanGoogleResponse body2 ≠ "" := by
    intro he
    rw [he] at h2
    exact absurd h2 (by decide)
  have e1 : parseSearchPlacesResponseBody body1 kind1 = ⟨[], some .emptyBody⟩ := by
    simp [parseSearchPlacesResponseBody, h1]
  have e2 : parseSearchPlacesResponseBody body2 kind2 = ⟨[], some .notJson⟩ := by
    simp [parseSearchPlacesResponseBody, hne, h2]
  exact ⟨e1, e2, by simp [e1], by simp [e2]⟩

/-- Witness for C6 at concrete bodies: a body consisting of just the guard
and the trailing comment marker strips to empty, and an HTML error page is
rejected as not JSON. -/
theorem emptyAndHtmlBodies_witness :
    cleanGoogleResponse ")]\x7d\x27\n/*\"\"*/" = ""
    ∧ looksLikeHtml (cleanGoogleResponse "<!DOCTYPE html><body>err</body>") = true
    ∧ (parseSearchPlacesResponseBody ")]\x7d\x27\n/*\"\"*/" false = ⟨[], some .emptyBody⟩
       ∧ parseSearchPlacesResponseBody "<!DOCTYPE html><body>err</body>" true = ⟨[], some .notJson⟩
       ∧ (parseSearchPlacesResponseBody ")]\x7d\x27\n/*\"\"*/" false).error ≠ none
       ∧ (parseSearchPlacesResponseBody "<!DOCTYPE html><body>err</body>" true).error ≠ none) :=
  ⟨by decide, by decide,
   emptyAndHtmlBodies ")]\x7d\x27\n/*\"\"*/" "<!DOCTYPE html><body>err</body>" false true
     (by decide) (by decide)⟩

/-! ### Claim C7 — zero candidates decode to an empty success -/

/-- Claim C7 fails on the code: the body `"null"` parses successfully (and
trivially yields zero structural-search candidates), yet decoding reports
a hard error — reading the wrapper field `.d` off the `null` payload
throws, and the catch of line 841 turns that into an error result. -/
theorem emptyDecodeSuccess_cex :
    (Json.parse (cleanGoogleResponse "null")).isSome = true
    ∧ collectPlaces 7 JVal.null = []
    ∧ (parseSearchPlacesResponseBody "null" false).placesPaginationData = []
    ∧ (parseSearchPlacesResponseBody "null" false).error ≠ none := by decide

/-- Claim C7 amended: for every payload that parses successfully and whose
extraction phase does not throw (the payload is not `null`, and the ads
slot reads as an array none of whose entries makes the slot-15 read throw
or parse to a record), zero structural-search candidates give a
successful, empty decode; and a `DetailPreview` payload without a truthy
value at its fixed slot 6 likewise gives a successful, empty decode. -/
theorem emptyDecodeSuccess (body1 body2 : String) (jo1 jo2 : JVal) (ads : List JVal)
    (h1 : cleanGoogleResponse body1 ≠ "")
    (h2 : looksLikeHtml (cleanGoogleResponse body1) = false)
    (h3 : parseAttempts (cleanGoogleResponse body1) = some jo1)
    (h4 : jo1 ≠ .null) (h5 : jo1 ≠ .undefined)
    (h6 : truthy (jsField jo1 "d") = false)
    (h7 : adsOf jo1 = .ok (.arr ads))
    (h8 : adsLoop ads [] = ([], none))
    (h9 : collectPlaces 7 jo1 = [])
    (g1 : cleanGoogleResponse body2 ≠ "")
    (g2 : looksLikeHtml (cleanGoogleResponse body2) = false)
    (g3 : parseAttempts (cleanGoogleResponse body2) = some jo2)
    (g4 : jo2 ≠ .null) (g5 : jo2 ≠ .undefined)
    (g6 : truthy (jsIdx jo2 6) = false) :
    parseSearchPlacesResponseBody body1 false = ⟨[], none⟩
    ∧ parseSearchPlacesResponseBody body2 true = ⟨[], none⟩ := by
  constructor
  · have hb : searchBranch jo1 = ⟨[], none⟩ := by
      simp [searchBranch, jsFieldE_ok "d" h4 h5, h6, searchExtract, h7, h8, h9]
    simp [parseSearchPlacesResponseBody, h1, h2, h3, hb]
  · have hb : detailBranch jo2 = ⟨[], none⟩ := by
      simp [detailBranch, jsIdxE_ok 6 g4 g5, parseJsonResult_falsy false g6]
    simp [parseSearchPlacesResponseBody, g1, g2, g3, hb]

/-- Witness for C7's amended claim at concrete bodies: the `SearchPage`
body `[1,2]` and the `DetailPreview` body `[]` both decode to an empty,
error-free result. -/
theorem emptyDecodeSuccess_witness :
    parseAttempts (cleanGoogleResponse "[1,2]") = some (.arr [.num 1 0, .num 2 0])
    ∧ (parseSearchPlacesResponseBody "[1,2]" false = ⟨[], none⟩
       ∧ parseSearchPlacesResponseBody "[]" true = ⟨[], none⟩) :=
  ⟨by decide,
   emptyDecodeSuccess "[1,2]" "[]" (.arr [.num 1 0, .num 2 0]) (.arr []) []
     (by decide) (by decide) (by decide) (by decide) (by decide) (by decide) (by decide)
     (by decide) (by decide) (by decide) (by decide) (by decide) (by decide) (by decide)
     (by decide)⟩

/-! ### Claim C3 — wrapped and unwrapped payloads decode alike -/

/-- Claim C3: for every valid two-layer-wrapped payload — an outer JSON
object whose wrapper field `d` holds a nonempty, guard-prefixed,
string-encoded inner document that unstringifies to the very tree the
unwrapped inner document parses to — decoding the wrapped body yields
exactly the same ordered Records (and error outcome) as decoding the
unwrapped inner document directly. -/
theorem wrappedUnwrappedAgree (outer inner : String) (jo data : JVal) (ds : String)
    (houter : Json.parse (cleanGoogleResponse outer) = some jo)
    (hd : jsFieldE jo "d" = .ok (.str ds))
    (hds : ds ≠ "")
    (hun : unstringifyGoogleXrhResponse (.str ds) = some data)
    (hinner : Json.parse (cleanGoogleResponse inner) = some data)
    (hn : data ≠ .null) (hu : data ≠ .undefined)
    (hdd : truthy (jsField data "d") = false) :
    parseSearchPlacesResponseBody outer false = parseSearchPlacesResponseBody inner false := by
  have hne_o : cleanGoogleResponse outer ≠ "" := Json.parse_nonempty houter
  have hne_i : cleanGoogleResponse inner ≠ "" := Json.parse_nonempty hinner
  have hh_o : looksLikeHtml (cleanGoogleResponse outer) = false := by
    cases hx : looksLikeHtml (cleanGoogleResponse outer) with
    | false => rfl
    | true => rw [Json.parse_of_html hx] at houter; exact Option.noConfusion houter
  have hh_i : looksLikeHtml (cleanGoogleResponse inner) = false := by
    cases hx : looksLikeHtml (cleanGoogleResponse inner) with
    | false => rfl
    | true => rw [Json.parse_of_html hx] at hinner; exact Option.noConfusion hinner
  have hpa_o : parseAttempts (cleanGoogleResponse outer) = some jo := by
    simp [parseAttempts, houter]
  have hpa_i : parseAttempts (cleanGoogleResponse inner) = some data := by
    simp [parseAttempts, hinner]
  have hsb_o : searchBranch jo = searchExtract data := by
    simp [searchBranch, hd, truthy, hds, unwrapD, hun]
  have hsb_i : searchBranch data = searchExtract data := by
    rw [searchBranch, jsFieldE_ok "d" hn hu]
    simp [hdd]
  calc parseSearchPlacesResponseBody outer false = searchExtract data := by
        simp [parseSearchPlacesResponseBody, hne_o, hh_o, hpa_o, hsb_o]
    _ = parseSearchPlacesResponseBody inner false := by
        simp [parseSearchPlacesResponseBody, hne_i, hh_i, hpa_i, hsb_i]

/-- Witness for C3 at a concrete wrapped body whose inner document is
`[7]`. -/
theorem wrappedUnwrappedAgree_witness :
    Json.parse (cleanGoogleResponse "\x7b\"d\":\")]\x7d\x27\\n[7]\"\x7d")
      = some (.obj [("d", .str ")]\x7d\x27\n[7]")])
    ∧ parseSearchPlacesResponseBody "\x7b\"d\":\")]\x7d\x27\\n[7]\"\x7d" false
      = parseSearchPlacesResponseBody "[7]" false :=
  ⟨by decide,
   wrappedUnwrappedAgree "\x7b\"d\":\")]\x7d\x27\\n[7]\"\x7d" "[7]"
     (.obj [("d", .str ")]\x7d\x27\n[7]")]) (.arr [.num 7 0]) ")]\x7d\x27\n[7]"
     (by decide) (by decide) (by decide) (by decide) (by decide) (by decide) (by decide)
     (by decide)⟩

/-! ### Claims C5 and C10 — deduplication by id -/

theorem organicLoop_eq_dedup (l : List JVal) :
    ∀ (seen : List JVal) (acc : List PlacePagination),
      organicLoop l seen acc =
        acc ++ dedupKeepFirst (l.filterMap (fun r =>
          match parseJsonResult r false with
          | some pd => if truthy pd.placeId then some pd else none
          | none => none)) seen := by
  induction l with
  | nil => intro seen acc; simp [organicLoop, dedupKeepFirst]
  | cons r rest ih =>
    intro seen acc
    simp only [organicLoop, List.filterMap_cons]
    cases hp : parseJsonResult r false with
    | none => simp [hp, ih]
    | some pd =>
      by_cases ht : truthy pd.placeId = true
      · by_cases hs : pd.placeId ∈ seen
        · simp [hp, ht, hs, ih, dedupKeepFirst]
        · simp [hp, ht, hs, ih, dedupKeepFirst]
      · simp [hp, ht, ih]

/-- The organic output is the keep-first-occurrence dedup of the candidate
stream. -/
theorem organicRecords_eq_dedup (data : JVal) :
    organicRecords data = dedupKeepFirst (parsedCandidates data) [] := by
  rw [organicRecords, organicLoop_eq_dedup]
  simp [parsedCandidates]

theorem dedupKeepFirst_not_seen :
    ∀ (l : List PlacePagination) (seen : List JVal) (pd : PlacePagination),
      pd ∈ dedupKeepFirst l seen → pd.placeId ∉ seen := by
  intro l
  induction l with
  | nil => intro seen pd h; simp [dedupKeepFirst] at h
  | cons q rest ih =>
    intro seen pd h
    simp only [dedupKeepFirst] at h
    by_cases hq : q.placeId ∈ seen
    · rw [if_pos hq] at h
      exact ih seen pd h
    · rw [if_neg hq] at h
      rcases List.mem_cons.1 h with rfl | h'
      · exact hq
      · intro hc
        exact ih _ pd h' (List.mem_cons_of_mem _ hc)

theorem dedupKeepFirst_first :
    ∀ (l : List PlacePagination) (seen : List JVal) (pd : PlacePagination),
      pd ∈ dedupKeepFirst l seen →
      l.find? (fun q => decide (q.placeId = pd.placeId)) = some pd := by
  intro l
  induction l with
  | nil => intro seen pd h; simp [dedupKeepFirst] at h
  | cons q rest ih =>
    intro seen pd h
    simp only [dedupKeepFirst] at h
    by_cases hq : q.placeId ∈ seen
    · rw [if_pos hq] at h
      have hne : ¬(q.placeId = pd.placeId) := by
        intro he
        exact (dedupKeepFirst_not_seen rest seen pd h) (he ▸ hq)
      rw [List.find?_cons_of_neg _ (by simp [hne]), ih seen pd h]
    · rw [if_neg hq] at h
      rcases List.mem_cons.1 h with rfl | h'
      · rw [List.find?_cons_of_pos _ (by simp)]
      · have hne : ¬(q.placeId = pd.placeId) := by
          intro he
          exact (dedupKeepFirst_not_seen rest (q.placeId :: seen) pd h')
            (he ▸ List.mem_cons_self _ _)
        rw [List.find?_cons_of_neg _ (by simp [hne]), ih _ pd h']

theorem dedupKeepFirst_countP_seen :
    ∀ (l : List PlacePagination) (seen : List JVal) (x : JVal), x ∈ seen →
      (dedupKeepFirst l seen).countP (fun pd => decide (pd.placeId = x)) = 0 := by
  intro l
  induction l with
  | nil => intro seen x hx; simp [dedupKeepFirst]
  | cons q rest ih =>
    intro seen x hx
    simp only [dedupKeepFirst]
    by_cases hq : q.placeId ∈ seen
    · rw [if_pos hq]
      exact ih seen x hx
    · rw [if_neg hq, List.countP_cons]
      have hne : ¬(q.placeId = x) := fun he => hq (he ▸ hx)
      simp [hne, ih (q.placeId :: seen) x (List.mem_cons_of_mem _ hx)]

theorem dedupKeepFirst_countP_le_one :
    ∀ (l : List PlacePagination) (seen : List JVal) (x : JVal),
      (dedupKeepFirst l seen).countP (fun pd => decide (pd.placeId = x)) ≤ 1 := by
  intro l
  induction l with
  | nil => intro seen x; simp [dedupKeepFirst]
  | cons q rest ih =>
    intro seen x
    simp only [dedupKeepFirst]
    by_cases hq : q.placeId ∈ seen
    · rw [if_pos hq]
      exact ih seen x
    · rw [if_neg hq, List.countP_cons]
      by_cases he : q.placeId = x
      · subst he
        have h0 := dedupKeepFirst_countP_seen rest (q.placeId :: seen) q.placeId
          (List.mem_cons_self _ _)
        simp [h0]
      · simp [he]
        exact ih (q.placeId :: seen) x

theorem dedupKeepFirst_mem_id :
    ∀ (l : List PlacePagination) (seen : List JVal) (x : JVal),
      (∃ pd ∈ l, pd.placeId = x) → x ∉ seen →
      ∃ pd ∈ dedupKeepFirst l seen, pd.placeId = x := by
  intro l
  induction l with
  | nil => intro seen x h _; simp at h
  | cons q rest ih =>
    intro seen x h hx
    simp only [dedupKeepFirst]
    by_cases hq : q.placeId ∈ seen
    · rw [if_pos hq]
      rcases h with ⟨pd, hpd, hid⟩
      rcases List.mem_cons.1 hpd with rfl | h'
      · exact absurd (hid ▸ hq) hx
      · exact ih seen x ⟨pd, h', hid⟩ hx
    · rw [if_neg hq]
      by_cases he : q.placeId = x
      · exact ⟨q, List.mem_cons_self _ _, he⟩
      · rcases h with ⟨pd, hpd, hid⟩
        rcases List.mem_cons.1 hpd with rfl | h'
        · exact absurd hid he
        · obtain ⟨pd', hm, hi⟩ := ih (q.placeId :: seen) x ⟨pd, h', hid⟩ (by
            intro hc
            rcases List.mem_cons.1 hc with hc' | hc'
            · exact he hc'.symm
            · exact hx hc')
          exact ⟨pd', List.mem_cons_of_mem _ hm, hi⟩

theorem parseJsonResult_flag {v : JVal} {b : Bool} {pd : PlacePagination}
    (h : parseJsonResult v b = some pd) : pd.isAdvertisement = b := by
  rw [parseJsonResult] at h
  by_cases ht : truthy v = true
  · simp [ht] at h
    rw [← h]
  · simp [ht] at h

theorem parsedCandidates_not_ad (data : JVal) :
    ∀ pd ∈ parsedCandidates data, pd.isAdvertisement = false := by
  intro pd h
  simp only [parsedCandidates, List.mem_filterMap] at h
  obtain ⟨r, _, hr⟩ := h
  cases hp : parseJsonResult r false with
  | none => rw [hp] at hr; exact absurd hr (by simp)
  | some pd' =>
    rw [hp] at hr
    by_cases ht : truthy pd'.placeId = true
    · simp [ht] at hr
      exact hr ▸ parseJsonResult_flag hp
    · simp [ht] at hr

/-- Claim C5: within a single decode call, the structural-search
candidates are deduplicated by extracted id — the organic output is
exactly the keep-first-occurrence dedup of the candidate stream, any id
occurs in it at most once, and every kept Record is the stream's first
candidate with its id; later duplicates disappear without an error. -/
theorem structuralSearchDedup (data x : JVal) :
    organicRecords data = dedupKeepFirst (parsedCandidates data) []
    ∧ (organicRecords data).countP (fun pd => decide (pd.placeId = x)) ≤ 1
    ∧ (∀ pd ∈ organicRecords data,
        (parsedCandidates data).find? (fun q => decide (q.placeId = pd.placeId)) = some pd) := by
  have he := organicRecords_eq_dedup data
  refine ⟨he, ?_, ?_⟩
  · rw [he]
    exact dedupKeepFirst_countP_le_one _ [] x
  · intro pd hm
    rw [he] at hm
    exact dedupKeepFirst_first _ [] pd hm

/-- Witness for C5 on a payload that contains the same candidate several
times (bare and wrapped): one Record with id `X` survives, at its
first-seen stream position. -/
theorem structuralSearchDedup_witness :
    2 ≤ (parsedCandidates exDupPayload).length
    ∧ (organicRecords exDupPayload).countP
        (fun pd => decide (pd.placeId = .str "X")) ≤ 1
    ∧ organicRecords exDupPayload = (parsedCandidates exDupPayload).take 1 :=
  ⟨by decide, (structuralSearchDedup exDupPayload (.str "X")).2.1, by decide⟩

/-- When the ads slot reads back cleanly, a decode's output is the
advertisement records followed by the organic records. -/
theorem searchExtract_decompose (data : JVal) (ads : List JVal)
    (adsRecs : List PlacePagination)
    (h1 : adsOf data = .ok (.arr ads))
    (h2 : adsLoop ads [] = (adsRecs, none)) :
    searchExtract data = ⟨adsRecs ++ organicRecords data, none⟩ := by
  rw [searchExtract, h1]
  dsimp only
  rw [h2]
  dsimp only
  by_cases hc : (collectPlaces 7 data).isEmpty
  · have hnil : collectPlaces 7 data = [] := by simpa [List.isEmpty_iff] using hc
    simp [hc, organicRecords, hnil, organicLoop]
  · simp only [hc, if_false, Bool.false_eq_true]
    rw [organicLoop_eq_dedup, organicRecords_eq_dedup]
    simp [parsedCandidates]

/-- Claim C10: id-deduplication applies only to the structural search —
when an id appears both as an advertisement (slot 15 of an ads entry) and
as an organic candidate, the decode outputs the advertisement Record in
the ads prefix and a second, organic (non-advertisement) Record with the
same id after it. -/
theorem adPlusOrganicDuplicate (data x : JVal) (ads : List JVal)
    (adsRecs : List PlacePagination)
    (h1 : adsOf data = .ok (.arr ads))
    (h2 : adsLoop ads [] = (adsRecs, none))
    (had : ∃ pd ∈ adsRecs, pd.placeId = x ∧ pd.isAdvertisement = true)
    (horg : ∃ pd ∈ parsedCandidates data, pd.placeId = x) :
    (searchExtract data).placesPaginationData = adsRecs ++ organicRecords data
    ∧ (∃ pd ∈ organicRecords data, pd.placeId = x ∧ pd.isAdvertisement = false)
    ∧ 2 ≤ (searchExtract data).placesPaginationData.countP
        (fun pd => decide (pd.placeId = x)) := by
  have hdec := searchExtract_decompose data ads adsRecs h1 h2
  have horg' : ∃ pd ∈ organicRecords data, pd.placeId = x := by
    rw [organicRecords_eq_dedup]
    exact dedupKeepFirst_mem_id _ [] x horg (by simp)
  obtain ⟨pd, hm, hid⟩ := horg'
  have hstream : pd ∈ parsedCandidates data := by
    have hf := dedupKeepFirst_first _ [] pd (organicRecords_eq_dedup data ▸ hm)
    exact List.mem_of_find?_eq_some hf
  have hflag := parsedCandidates_not_ad data pd hstream
  refine ⟨by rw [hdec], ⟨pd, hm, hid, hflag⟩, ?_⟩
  rw [hdec]
  dsimp only
  obtain ⟨pa, hpa, hpaid, _⟩ := had
  have c1 : 0 < adsRecs.countP (fun pd => decide (pd.placeId = x)) :=
    List.countP_pos_iff.2 ⟨pa, hpa, by simp [hpaid]⟩
  have c2 : 0 < (organicRecords data).countP (fun pd => decide (pd.placeId = x)) :=
    List.countP_pos_iff.2 ⟨pd, hm, by simp [hid]⟩
  have := List.countP_append (fun pd => decide (pd.placeId = x)) adsRecs (organicRecords data)
  omega

/-- Witness for C10: in `exAdPayload` the id `X` appears both as an
advertisement and organically; the decode emits both Records, the
advertisement first. -/
theorem adPlusOrganicDuplicate_witness :
    adsOf exAdPayload = .ok (.arr [exAdEntry])
    ∧ ((searchExtract exAdPayload).placesPaginationData.map
        (fun pd => (pd.placeId, pd.isAdvertisement))
        = [(.str "X", true), (.str "X", false)])
    ∧ 2 ≤ (searchExtract exAdPayload).placesPaginationData.countP
        (fun pd => decide (pd.placeId = .str "X")) :=
  ⟨by decide, by decide,
   (adPlusOrganicDuplicate exAdPayload (.str "X") [exAdEntry]
      (adsLoop [exAdEntry] []).1 (by decide) (by decide) (by decide) (by decide)).2.2⟩

/-! ### Claim C1 — the rank formula -/

theorem processRecords_rank (cfg : Config) (pn : Int) :
    ∀ (recs : List PlacePagination) (i : Nat) (st : SessState) (enq : Nat),
      ∀ e ∈ (processRecords cfg pn i recs st enq).2.2,
        e.rank = (pn - 1) * 20 + ((e.offset : Int) + 1) ∧ i ≤ e.offset := by
  intro recs
  induction recs with
  | nil =>
    intro i st enq e he
    simp [processRecords] at he
  | cons pd rest ih =>
    intro i st enq e he
    simp only [processRecords] at he
    split at he
    · rcases List.mem_cons.1 he with rfl | h'
      · exact ⟨rfl, le_rfl⟩
      · obtain ⟨h1, h2⟩ := ih (i + 1) _ enq e h'
        exact ⟨h1, (Nat.le_succ i).trans h2⟩
    · split at he
      · rcases List.mem_cons.1 he with rfl | h'
        · exact ⟨rfl, le_rfl⟩
        · simp at h'
      · split at he
        · rcases List.mem_cons.1 he with rfl | h'
          · exact ⟨rfl, le_rfl⟩
          · obtain ⟨h1, h2⟩ := ih (i + 1) _ (enq + 1) e h'
            exact ⟨h1, (Nat.le_succ i).trans h2⟩
        · rcases List.mem_cons.1 he with rfl | h'
          · exact ⟨rfl, le_rfl⟩
          · obtain ⟨h1, h2⟩ := ih (i + 1) _ enq e h'
            exact ⟨h1, (Nat.le_succ i).trans h2⟩

/-- Claim C1: for a SearchPage response whose request URL carries the page
index `pageIndex` in its `ech` query parameter, the record loop assigns
the Record at 0-based offset `off` the rank
`(pageIndex - 1) * 20 + off + 1`, and rank is strictly increasing in the
offset within the page. -/
theorem rankFormula (cfg : Config) (url : String) (pageIndex : Int)
    (recs : List PlacePagination) (st : SessState)
    (_hech : parseEchFromUrl url = some pageIndex) :
    (∀ e ∈ (processRecords cfg pageIndex 0 recs st 0).2.2,
        e.rank = (pageIndex - 1) * 20 + ((e.offset : Int) + 1))
    ∧ (∀ e1 e2, e1 ∈ (processRecords cfg pageIndex 0 recs st 0).2.2 →
        e2 ∈ (processRecords cfg pageIndex 0 recs st 0).2.2 →
        e1.offset < e2.offset → e1.rank < e2.rank) := by
  constructor
  · intro e he
    exact (processRecords_rank cfg pageIndex recs 0 st 0 e he).1
  · intro e1 e2 h1 h2 hlt
    have f1 := (processRecords_rank cfg pageIndex recs 0 st 0 e1 h1).1
    have f2 := (processRecords_rank cfg pageIndex recs 0 st 0 e2 h2).1
    rw [f1, f2]
    have hc : (e1.offset : Int) < (e2.offset : Int) := by exact_mod_cast hlt
    omega

/-- Witness for C1: a page-3 response assigns ranks 41 and 42 to offsets 0
and 1. -/
theorem rankFormula_witness :
    parseEchFromUrl "https://www.google.com/search?tbm=map&ech=3&pb=x" = some 3
    ∧ ((processRecords scenarioCfg 3 0 ((List.range 2).map scenarioRecord)
          (initialState scenarioTracker 10) 0).2.2.map TraceEntry.rank = [41, 42])
    ∧ (∀ e ∈ (processRecords scenarioCfg 3 0 ((List.range 2).map scenarioRecord)
          (initialState scenarioTracker 10) 0).2.2,
        e.rank = (3 - 1) * 20 + ((e.offset : Int) + 1)) :=
  ⟨by decide, by decide,
   (rankFormula scenarioCfg "https://www.google.com/search?tbm=map&ech=3&pb=x" 3
      ((List.range 2).map scenarioRecord) (initialState scenarioTracker 10) (by decide)).1⟩

/-! ### Claim C8 — budget counter discipline -/

theorem getCount_bump (l : List (String × Nat)) (k : String) :
    getCount (bumpCount l k) k = getCount l k + 1 := by
  induction l with
  | nil => simp [bumpCount, getCount]
  | cons p rest ih =>
    obtain ⟨k', n⟩ := p
    by_cases h : k' = k
    · simp [bumpCount, getCount, h]
    · simp [bumpCount, getCount, h, ih]

theorem sumCounts_bump (l : List (String × Nat)) (k : String) :
    sumCounts (bumpCount l k) = sumCounts l + 1 := by
  induction l with
  | nil => simp [bumpCount, sumCounts]
  | cons p rest ih =>
    obtain ⟨k', n⟩ := p
    by_cases h : k' = k
    · simp [bumpCount, sumCounts, h]
      omega
    · simp [bumpCount, sumCounts, h] at ih ⊢
      omega

theorem getCount_dec_bump (l : List (String × Nat)) (k : String) :
    ∀ k', getCount (decCount (bumpCount l k) k) k' = getCount l k' := by
  induction l with
  | nil =>
    intro k'
    by_cases h : k = k'
    · simp [bumpCount, decCount, getCount, h]
    · simp [bumpCount, decCount, getCount, h]
  | cons p rest ih =>
    intro k'
    obtain ⟨k1, n⟩ := p
    by_cases h : k1 = k
    · simp [bumpCount, decCount, getCount, h]
    · simp [bumpCount, decCount, getCount, h, ih k']

theorem sumCounts_dec_bump (l : List (String × Nat)) (k : String) :
    sumCounts (decCount (bumpCount l k) k) = sumCounts l := by
  induction l with
  | nil => simp [bumpCount, decCount, sumCounts]
  | cons p rest ih =>
    obtain ⟨k1, n⟩ := p
    by_cases h : k1 = k
    · simp [bumpCount, decCount, sumCounts, h]
    · simp [bumpCount, decCount, sumCounts, h] at ih ⊢
      omega

/-- The body of the record loop run on a single Record. -/
def handleOneRecord (cfg : Config) (pn : Int) (i : Nat) (pd : PlacePagination)
    (st : SessState) (enq : Nat) : SessState × Nat × List TraceEntry :=
  processRecords cfg pn i [pd] st enq

/-- Claim C8: in default (queue) mode, for every Record submitted to the
frontier, the budget counters are speculatively reserved before the
enqueue attempt, `enqueued` grows only when the frontier reports the
uniqueness key as new, a duplicate report restores both counters, and
after handling the Record the global count still equals the sum of the
per-search counts. -/
theorem budgetCounterDiscipline (cfg : Config) (pn : Int) (i : Nat)
    (pd : PlacePagination) (st : SessState) (enq : Nat)
    (hinv : st.tracker.enqueuedTotal = sumCounts st.tracker.enqueuedPerSearch)
    (hpoly : checkInPolygon cfg.geolocation (recCoordinates st pd) = true) :
    ((handleOneRecord cfg pn i pd st enq).1.tracker.enqueuedTotal
      = sumCounts (handleOneRecord cfg pn i pd st enq).1.tracker.enqueuedPerSearch)
    ∧ (st.tracker.canEnqueueMore cfg.searchKey = false →
        (handleOneRecord cfg pn i pd st enq).1.tracker = st.tracker
        ∧ (handleOneRecord cfg pn i pd st enq).2.1 = enq)
    ∧ (st.tracker.canEnqueueMore cfg.searchKey = true → recAlreadyPresent st pd = false →
        (handleOneRecord cfg pn i pd st enq).2.1 = enq + 1
        ∧ (handleOneRecord cfg pn i pd st enq).1.tracker.enqueuedTotal
            = st.tracker.enqueuedTotal + 1
        ∧ getCount (handleOneRecord cfg pn i pd st enq).1.tracker.enqueuedPerSearch
            cfg.searchKey
            = getCount st.tracker.enqueuedPerSearch cfg.searchKey + 1)
    ∧ (st.tracker.canEnqueueMore cfg.searchKey = true → recAlreadyPresent st pd = true →
        (handleOneRecord cfg pn i pd st enq).2.1 = enq
        ∧ (handleOneRecord cfg pn i pd st enq).1.tracker.enqueuedTotal
            = st.tracker.enqueuedTotal
        ∧ ∀ k, getCount (handleOneRecord cfg pn i pd st enq).1.tracker.enqueuedPerSearch k
            = getCount st.tracker.enqueuedPerSearch k) := by
  have hpoly' : checkInPolygon cfg.geolocation
      (jsOr pd.coords (st.cache.getLocation pd.placeId)) = true := hpoly
  cases hcan : st.tracker.canEnqueueMore cfg.searchKey with
  | false =>
    have hres : (handleOneRecord cfg pn i pd st enq).1.tracker = st.tracker
        ∧ (handleOneRecord cfg pn i pd st enq).2.1 = enq := by
      unfold handleOneRecord
      simp [processRecords, hpoly', MaxCrawledPlacesTracker.setEnqueued, hcan]
    refine ⟨?_, fun _ => hres, fun hc => by simp [hcan] at hc,
            fun hc => by simp [hcan] at hc⟩
    rw [hres.1]
    exact hinv
  | true =>
    cases hpres : recAlreadyPresent st pd with
    | false =>
      have hany : st.queue.requests.any
          (fun x => decide (x.uniqueKey = pd.placeId)) = false := hpres
      have hres : (handleOneRecord cfg pn i pd st enq).1.tracker
            = { st.tracker with
                  enqueuedPerSearch := bumpCount st.tracker.enqueuedPerSearch cfg.searchKey
                  enqueuedTotal := st.tracker.enqueuedTotal + 1 }
          ∧ (handleOneRecord cfg pn i pd st enq).2.1 = enq + 1 := by
        unfold handleOneRecord
        simp [processRecords, hpoly', MaxCrawledPlacesTracker.setEnqueued, hcan,
              RequestQueue.addRequest, hany]
      refine ⟨?_, fun hc => by simp [hcan] at hc,
              fun _ _ => ⟨hres.2, ?_, ?_⟩, fun _ hc => by simp [hpres] at hc⟩
      · rw [hres.1]
        simp [sumCounts_bump, hinv]
      · rw [hres.1]
      · rw [hres.1]
        exact getCount_bump _ _
    | true =>
      have hany : st.queue.requests.any
          (fun x => decide (x.uniqueKey = pd.placeId)) = true := hpres
      have hres : (handleOneRecord cfg pn i pd st enq).1.tracker
            = MaxCrawledPlacesTracker.decEnqueued
                { st.tracker with
                    enqueuedPerSearch := bumpCount st.tracker.enqueuedPerSearch cfg.searchKey
                    enqueuedTotal := st.tracker.enqueuedTotal + 1 } cfg.searchKey
          ∧ (handleOneRecord cfg pn i pd st enq).2.1 = enq := by
        unfold handleOneRecord
        simp [processRecords, hpoly', MaxCrawledPlacesTracker.setEnqueued, hcan,
              RequestQueue.addRequest, hany]
      refine ⟨?_, fun hc => by simp [hcan] at hc,
              fun _ hc => by simp [hpres] at hc, fun _ _ => ⟨hres.2, ?_, ?_⟩⟩
      · rw [hres.1]
        simp [MaxCrawledPlacesTracker.decEnqueued, sumCounts_dec_bump, hinv]
      · rw [hres.1]
        simp [MaxCrawledPlacesTracker.decEnqueued]
      · intro k
        rw [hres.1]
        simp [MaxCrawledPlacesTracker.decEnqueued, getCount_dec_bump]

/-- Witness for C8: handling one fresh Record against clean counters
reserves and keeps the budget, enqueues it, and preserves the
global-equals-sum invariant. -/
theorem budgetCounterDiscipline_witness :
    ((initialState scenarioTracker 10).tracker.enqueuedTotal
      = sumCounts (initialState scenarioTracker 10).tracker.enqueuedPerSearch)
    ∧ checkInPolygon scenarioCfg.geolocation
        (recCoordinates (initialState scenarioTracker 10) (scenarioRecord 0)) = true
    ∧ ((handleOneRecord scenarioCfg 1 0 (scenarioRecord 0)
          (initialState scenarioTracker 10) 0).1.tracker.enqueuedTotal
        = sumCounts (handleOneRecord scenarioCfg 1 0 (scenarioRecord 0)
            (initialState scenarioTracker 10) 0).1.tracker.enqueuedPerSearch)
    ∧ (handleOneRecord scenarioCfg 1 0 (scenarioRecord 0)
          (initialState scenarioTracker 10) 0).2.1 = 1 :=
  ⟨by decide, by decide,
   (budgetCounterDiscipline scenarioCfg 1 0 (scenarioRecord 0)
      (initialState scenarioTracker 10) 0 (by decide) (by decide)).1,
   by decide⟩

/-! ### Claims C4, C9, C2 — the scrolling loop -/

theorem processRecords_stats (cfg : Config) (pn : Int) :
    ∀ (recs : List PlacePagination) (i : Nat) (st : SessState) (enq : Nat),
      (processRecords cfg pn i recs st enq).1.stats = st.stats := by
  intro recs
  induction recs with
  | nil => intro i st enq; rfl
  | cons pd rest ih =>
    intro i st enq
    simp only [processRecords]
    split
    · exact ih (i + 1) _ enq
    · split
      · rfl
      · split
        · exact ih (i + 1) _ (enq + 1)
        · exact ih (i + 1) _ enq

theorem processBatch_pageNum (cfg : Config) (b : BatchInput) (st : SessState) :
    (processBatch cfg b st).stats.pageNum = st.stats.pageNum := by
  unfold processBatch
  cases b.parsed.error <;> simp [processRecords_stats]

theorem advance_pageNum (cfg : Config) (st : SessState) (inp : StepInput) :
    (advance cfg st inp).stats.pageNum = st.stats.pageNum + 1 := by
  unfold advance
  cases inp.batch <;> simp [processBatch_pageNum]

theorem stats_bump (st : SessState) : (bumpEmptyScrolls st).stats = st.stats := rfl

theorem cond2_flag (st : SessState) : cond2 (withFallbackFlag st) = cond2 st := rfl

theorem stats_flag (st : SessState) : (withFallbackFlag st).stats = st.stats := rfl

theorem condList_flag (cfg : Config) (st : SessState) (inp : StepInput) :
    condList cfg (withFallbackFlag st) inp = condList cfg st inp := rfl

theorem cond3_bump (st : SessState) : cond3 (bumpEmptyScrolls st) = cond3 st := rfl

theorem cond4_bump (cfg : Config) (st : SessState) :
    cond4 cfg (bumpEmptyScrolls st) = cond4 cfg st := rfl

theorem cond5_bump (cfg : Config) (st : SessState) (inp : StepInput) :
    cond5 cfg (bumpEmptyScrolls st) inp = cond5 cfg st inp := rfl

theorem cond6_bump (cfg : Config) (st : SessState) :
    cond6 cfg (bumpEmptyScrolls st) = cond6 cfg st := rfl

theorem cond7_bump (st : SessState) : cond7 (bumpEmptyScrolls st) = cond7 st := rfl

/-- The ordered checks of one loop iteration agree with the ordered
condition list: the iteration's outcome is the first condition that
holds, the empty-scroll bookkeeping aside the state is only changed when
none holds (scroll and page increment), and a decode-error stop keeps the
error in the state. -/
theorem scrollChecks_spec (cfg : Config) (st0 : SessState) (inp : StepInput) :
    ((scrollChecks cfg st0 inp).cause = firstCause (condList cfg st0 inp))
    ∧ (∀ st', scrollChecks cfg st0 inp = .continued st' →
        st'.stats.pageNum = st0.stats.pageNum + 1)
    ∧ (firstCause (condList cfg st0 inp) = none →
        scrollChecks cfg st0 inp = .continued (advance cfg (bumpEmptyScrolls st0) inp))
    ∧ (∀ st', scrollChecks cfg st0 inp = .stopped .decodeErrorStop st' →
        st'.stats.error = st0.stats.error) := by
  by_cases h1 : cond1 inp = true
  · simp [scrollChecks, condList, firstCause, h1, StepResult.cause]
  · by_cases h2 : cond2 st0 = true
    · simp [scrollChecks, condList, firstCause, h1, h2, StepResult.cause, stats_bump]
    · by_cases h3 : cond3 st0 = true
      · simp [scrollChecks, condList, firstCause, h1, h2, h3, cond3_bump,
              StepResult.cause, stats_bump]
      · by_cases h4 : cond4 cfg st0 = true
        · simp [scrollChecks, condList, firstCause, h1, h2, h3, h4, cond3_bump, cond4_bump,
                StepResult.cause]
        · by_cases h5 : cond5 cfg st0 inp = true
          · simp [scrollChecks, condList, firstCause, h1, h2, h3, h4, h5, cond3_bump,
                  cond4_bump, cond5_bump, StepResult.cause]
          · by_cases h6 : cond6 cfg st0 = true
            · simp [scrollChecks, condList, firstCause, h1, h2, h3, h4, h5, h6, cond3_bump,
                    cond4_bump, cond5_bump, cond6_bump, StepResult.cause]
            · by_cases h7 : cond7 st0 = true
              · simp [scrollChecks, condList, firstCause, h1, h2, h3, h4, h5, h6, h7,
                      cond3_bump, cond4_bump, cond5_bump, cond6_bump, cond7_bump,
                      StepResult.cause]
              · simp [scrollChecks, condList, firstCause, h1, h2, h3, h4, h5, h6, h7,
                      cond3_bump, cond4_bump, cond5_bump, cond6_bump, cond7_bump,
                      StepResult.cause, advance_pageNum, stats_bump]

theorem firstCause_mem :
    ∀ (l : List (Bool × StopCause)) (c : StopCause),
      firstCause l = some c → ∃ p ∈ l, p.2 = c := by
  intro l
  induction l with
  | nil => intro c h; simp [firstCause] at h
  | cons p rest ih =>
    intro c h
    obtain ⟨b, c'⟩ := p
    simp only [firstCause] at h
    by_cases hb : b = true
    · rw [if_pos hb] at h
      exact ⟨(b, c'), List.mem_cons_self _ _, Option.some.inj h⟩
    · rw [if_neg hb] at h
      obtain ⟨q, hq, hqc⟩ := ih c h
      exact ⟨q, List.mem_cons_of_mem _ hq, hqc⟩

/-- None of the seven ordered conditions stops with the DOM-fallback
cause. -/
theorem firstCause_ne_dom (cfg : Config) (st : SessState) (inp : StepInput) :
    firstCause (condList cfg st inp) ≠ some StopCause.domFallbackExit := by
  intro h
  obtain ⟨p, hp, hc⟩ := firstCause_mem _ _ h
  simp only [condList, List.mem_cons, List.not_mem_nil, or_false] at hp
  rcases hp with rfl | rfl | rfl | rfl | rfl | rfl | rfl <;> simp at hc

/-- Claim C4 fails on the code: an iteration can end through the
DOM-fallback branch of line 426 before any of the seven stop conditions is
evaluated — in this state none of them holds, yet the iteration ends the
session instead of scrolling. -/
theorem stopConditionOrder_cex :
    (scrollStep scenarioCfg fallbackSt fallbackInput).cause = some StopCause.domFallbackExit
    ∧ firstCause (condList scenarioCfg fallbackSt fallbackInput) = none := by decide

/-- Claim C4 amended: on every iteration in which the DOM-fallback branch
does not end the session (it fires only when `pageNum > 2` with
`totalFound = 0` and DOM extraction returns places), the stop conditions
are evaluated in exactly the claimed order — the iteration's outcome is
the first condition that holds, a pending decode error stops the session
with the error (and raw body) preserved in the state rather than
swallowed, and only if no condition holds does the loop scroll and
increment the page index. -/
theorem stopConditionOrder (cfg : Config) (st : SessState) (inp : StepInput)
    (h : fallbackCond st = true → inp.domPlaces = []) :
    ((scrollStep cfg st inp).cause = firstCause (condList cfg st inp))
    ∧ (∀ st', scrollStep cfg st inp = .continued st' →
        st'.stats.pageNum = st.stats.pageNum + 1)
    ∧ (firstCause (condList cfg st inp) = none →
        ∃ st', scrollStep cfg st inp = .continued st')
    ∧ (∀ st', scrollStep cfg st inp = .stopped .decodeErrorStop st' →
        st'.stats.error = st.stats.error) := by
  by_cases hf : fallbackCond st = true
  · have hd : inp.domPlaces = [] := h hf
    have hs : scrollStep cfg st inp = scrollChecks cfg (withFallbackFlag st) inp := by
      simp [scrollStep, hf, hd]
    obtain ⟨c1, c2, c3, c4⟩ := scrollChecks_spec cfg (withFallbackFlag st) inp
    rw [condList_flag] at c1 c3
    refine ⟨by rw [hs]; exact c1, ?_, ?_, ?_⟩
    · intro st' h'
      rw [hs] at h'
      have := c2 st' h'
      rwa [stats_flag] at this
    · intro hnone
      exact ⟨_, by rw [hs]; exact c3 hnone⟩
    · intro st' h'
      rw [hs] at h'
      have := c4 st' h'
      rwa [stats_flag] at this
  · have hs : scrollStep cfg st inp = scrollChecks cfg st inp := by
      simp [scrollStep, hf]
    obtain ⟨c1, c2, c3, c4⟩ := scrollChecks_spec cfg st inp
    exact ⟨by rw [hs]; exact c1, fun st' h' => c2 st' (hs ▸ h'),
           fun hnone => ⟨_, by rw [hs]; exact c3 hnone⟩, fun st' h' => c4 st' (hs ▸ h')⟩

/-- Witness for C4's amended claim at a concrete non-fallback iteration:
the outcome matches the ordered condition list. -/
theorem stopConditionOrder_witness :
    (fallbackCond (initialState scenarioTracker 10) = true → (emptyIn 2).domPlaces = [])
    ∧ ((scrollStep scenarioCfg (initialState scenarioTracker 10) (emptyIn 2)).cause
        = firstCause (condList scenarioCfg (initialState scenarioTracker 10) (emptyIn 2))) :=
  ⟨by decide,
   (stopConditionOrder scenarioCfg (initialState scenarioTracker 10) (emptyIn 2)
      (by decide)).1⟩

/-- Claim C9 fails on the code: after the DOM-fallback branch has
triggered (the flag is set but never read back), the wire-decoder path is
still in effect — a later XHR batch is decoded and enqueued with full
coordinate metadata. -/
theorem domFallbackSwitch_cex :
    fallbackRun.2.useDOMFallback = true
    ∧ fallbackRun.2.stats.totalEnqueued = 1
    ∧ fallbackRun.2.queue.requests.map (fun r => r.userData.coords.isSome) = [true] := by decide

/-- Claim C9 amended: the DOM fallback is attempted exactly on iterations
that start with `pageIndex > 2` and `totalFound = 0`; when DOM extraction
yields places the session ends on that iteration with them enqueued the
same way (budget-checked with a break on failure, uniqueness key
`placeId || placeUrl`, forefront) but without coordinate, address,
advertisement or category metadata; when it yields none, the iteration
falls through to the ordinary stop checks with only the never-read flag
set, so the Wire Decoder stays in effect. -/
theorem domFallbackSwitch (cfg : Config) (st : SessState) (inp : StepInput) (p : DomPlace) :
    ((scrollStep cfg st inp).cause = some .domFallbackExit ↔
      (fallbackCond st = true ∧ inp.domPlaces ≠ []))
    ∧ (fallbackCond st = true → inp.domPlaces ≠ [] →
        scrollStep cfg st inp =
          .stopped .domFallbackExit (processDomPlaces cfg inp.domPlaces (withFallbackFlag st)))
    ∧ (fallbackCond st = true → inp.domPlaces = [] →
        scrollStep cfg st inp = scrollChecks cfg (withFallbackFlag st) inp)
    ∧ (st.tracker.canEnqueueMore cfg.searchKey = false → processDomPlaces cfg [p] st = st)
    ∧ (st.tracker.canEnqueueMore cfg.searchKey = true →
        st.queue.requests.any (fun x => decide (x.uniqueKey = domUniqueKey p)) = false →
        (processDomPlaces cfg [p] st).queue.requests
          = domRequest cfg st p :: st.queue.requests
        ∧ (processDomPlaces cfg [p] st).stats.enqueued = st.stats.enqueued + 1
        ∧ (processDomPlaces cfg [p] st).stats.totalEnqueued = st.stats.totalEnqueued + 1)
    ∧ ((domRequest cfg st p).userData.coords = none
       ∧ (domRequest cfg st p).userData.categories = none
       ∧ (domRequest cfg st p).userData.addressParsed = none
       ∧ (domRequest cfg st p).userData.isAdvertisement = none
       ∧ (domRequest cfg st p).uniqueKey = domUniqueKey p) := by
  refine ⟨?_, ?_, ?_, ?_, ?_, rfl, rfl, rfl, rfl, rfl⟩
  · constructor
    · intro hc
      by_cases hf : fallbackCond st = true
      · by_cases hne : inp.domPlaces = []
        · have hs : scrollStep cfg st inp = scrollChecks cfg (withFallbackFlag st) inp := by
            simp [scrollStep, hf, hne]
          rw [hs] at hc
          rw [(scrollChecks_spec cfg (withFallbackFlag st) inp).1] at hc
          exact absurd hc (firstCause_ne_dom cfg (withFallbackFlag st) inp)
        · exact ⟨hf, hne⟩
      · have hs : scrollStep cfg st inp = scrollChecks cfg st inp := by
          simp [scrollStep, hf]
        rw [hs, (scrollChecks_spec cfg st inp).1] at hc
        exact absurd hc (firstCause_ne_dom cfg st inp)
    · rintro ⟨hf, hne⟩
      simp [scrollStep, hf, hne, StepResult.cause]
  · intro hf hne
    simp [scrollStep, hf, hne]
  · intro hf hne
    simp [scrollStep, hf, hne]
  · intro hcan
    simp [processDomPlaces, MaxCrawledPlacesTracker.setEnqueued, hcan]
  · intro hcan hany
    have hres : processDomPlaces cfg [p] st =
        { st with
            tracker := { st.tracker with
              enqueuedPerSearch := bumpCount st.tracker.enqueuedPerSearch cfg.searchKey
              enqueuedTotal := st.tracker.enqueuedTotal + 1 }
            queue := ⟨domRequest cfg st p :: st.queue.requests⟩
            stats := { st.stats with
              totalEnqueued := st.stats.totalEnqueued + 1
              enqueued := st.stats.enqueued + 1 } } := by
      simp [processDomPlaces, MaxCrawledPlacesTracker.setEnqueued, hcan,
            RequestQueue.addRequest, domRequest, hany]
    rw [hres]
    exact ⟨rfl, rfl, rfl⟩

/-- Witness for C9's amended claim: in the concrete fallback state, the
iteration ends through the DOM fallback and the enqueued request carries
no coordinate or category metadata. -/
theorem domFallbackSwitch_witness :
    fallbackCond fallbackSt = true
    ∧ fallbackInput.domPlaces ≠ []
    ∧ (scrollStep scenarioCfg fallbackSt fallbackInput).cause
        = some StopCause.domFallbackExit :=
  ⟨by decide, by decide,
   ((domFallbackSwitch scenarioCfg fallbackSt fallbackInput
       ⟨some "dom-pid", "/maps/place/Foo/data=!1sabc", "Foo"⟩).1).mpr
     ⟨by decide, by decide⟩⟩

/-- Claim C2 fails on the code: in the five-new-then-duplicates scenario
the session neither reaches step 11 nor stops through the
consecutive-empty-steps rule, and `totalFound` is not 5 — duplicate
batches still count into `totalFound` (so the empty-scroll counter never
grows), and the single-step-no-new-results heuristic ends the session on
the iteration after the first all-duplicate step. -/
theorem duplicateScrollScene_cex :
    scenarioRun.1 ≠ some StopCause.emptyScrollLimit
    ∧ scenarioRun.2.stats.totalFound ≠ 5 := by decide

/-- Claim C2 amended: a `SCROLLING` session that decodes 5 fresh Records
on step 1 and the same 5 Records (by id) on the following steps terminates
during iteration 2 — after a single scroll — through the
single-step-no-new-results heuristic, with `totalEnqueued = 5` and
`totalFound = 10` (duplicates are re-counted into `totalFound`). -/
theorem duplicateScrollScene :
    scenarioRun.1 = some StopCause.noNewResults
    ∧ scenarioRun.2.stats.totalEnqueued = 5
    ∧ scenarioRun.2.stats.totalFound = 10
    ∧ scenarioRun.2.stats.pageNum = 2 := by decide
